import Mathlib

/-!
# GCodeViewer.hpp : buffers, paths, render paths, ranges and layers

Shallow embedding of the data structures declared in
`src/slic3r/GUI/GCodeViewer.hpp` (built with `ENABLE_SPLITTED_VERTEX_BUFFER`)
and the properties proved about them.

Conventions of the embedding
* `size_t` is a natural number below `2^64`, `unsigned int` one below `2^32`,
  `int` an integer in `[-2^31, 2^31)`; arithmetic that C++ performs in one of
  these types is followed by the matching reduction.
* a `float` is a `FloatVal`: NaN, an infinity or a rational number; the
  comparison operators follow IEEE-754 (every comparison with NaN is false,
  except `!=` which is true); a `double` is a `FloatVal` as well.
* `std::vector<T>` is `List T`.
-/

namespace GCodeViewer

/-! ## Machine types -/

/-- Number of values of `size_t` (64-bit targets). -/
abbrev SIZE_T_MOD : Nat := 2 ^ 64

/-- Number of values of `unsigned int`. -/
abbrev UINT_MOD : Nat := 2 ^ 32

/-- Number of values of `IBufferType = unsigned short`. -/
abbrev IBufferType_MOD : Nat := 2 ^ 16

/-- Value of `sizeof(float)`. -/
abbrev sizeof_float : Nat := 4

/-- Result of `static_cast<int>(n)` for an unsigned `n`: reduction modulo `2^32`
read as a two's complement 32-bit integer. -/
def to_int (n : Nat) : Int :=
  if n % 2 ^ 32 < 2 ^ 31 then ((n % 2 ^ 32 : Nat) : Int) else ((n % 2 ^ 32 : Nat) : Int) - 2 ^ 32

/-- Value of a C++ `float` as the comparison operators see it (the two signed
zeros are the one number `0`). -/
inductive FloatVal where
  | nan : FloatVal
  | negInf : FloatVal
  | fin (q : ℚ) : FloatVal
  | posInf : FloatVal
  deriving DecidableEq

namespace FloatVal

/-- C++ `a < b` on floats. -/
def lt : FloatVal → FloatVal → Bool
  | nan, _ => false
  | _, nan => false
  | negInf, negInf => false
  | negInf, _ => true
  | fin _, negInf => false
  | fin a, fin b => decide (a < b)
  | fin _, posInf => true
  | posInf, _ => false

/-- C++ `a > b` on floats. -/
def gt (a b : FloatVal) : Bool := lt b a

/-- C++ `a == b` on floats. -/
def eq : FloatVal → FloatVal → Bool
  | nan, _ => false
  | _, nan => false
  | a, b => decide (a = b)

/-- C++ `a != b` on floats. -/
def ne (a b : FloatVal) : Bool := !(eq a b)

/-- C++ `a <= b` on floats. -/
def le (a b : FloatVal) : Bool := lt a b || eq a b

/-- Test for NaN. -/
def isNaN : FloatVal → Bool
  | nan => true
  | _ => false

/-- `std::min(a, b)`, which is `(b < a) ? b : a`. -/
def std_min (a b : FloatVal) : FloatVal := if lt b a then b else a

/-- `std::max(a, b)`, which is `(a < b) ? b : a`. -/
def std_max (a b : FloatVal) : FloatVal := if lt a b then b else a

end FloatVal

/-- Constant `FLT_MAX` of `<float.h>`: `(2^24 - 1) * 2^104`. -/
def FLT_MAX : ℚ := 340282346638528859811704183484516925440

/-- Conversion of a non-negative integer to `float` (IEEE-754 binary32, round
to nearest, ties to even): integers up to `2^24` are exact, larger ones keep 24
significant bits. -/
def float_of_nat (n : Nat) : FloatVal :=
  if n ≤ 2 ^ 24 then FloatVal.fin n
  else
    let e := Nat.log2 n - 23
    let q := n / 2 ^ e
    let r := n % 2 ^ e
    let h := 2 ^ (e - 1)
    let m := if h < r ∨ (r = h ∧ q % 2 = 1) then q + 1 else q
    if FLT_MAX < ((m * 2 ^ e : Nat) : ℚ) then FloatVal.posInf else FloatVal.fin ((m * 2 ^ e : Nat) : ℚ)

/-! ## VBuffer -/

/-- The enumeration `VBuffer::EFormat`. -/
inductive EFormat where
  | Position
  | PositionNormal1
  | PositionNormal3
  deriving DecidableEq, Repr

/-- The type `VertexBuffer = std::vector<float>`. -/
abbrev VertexBuffer := List FloatVal

/-- The struct `VBuffer`. -/
structure VBuffer where
  format : EFormat := EFormat.Position
  vbos : List Nat := []
  sizes : List Nat := []
  count : Nat := 0
  deriving DecidableEq

namespace VBuffer

/-- The method `VBuffer::position_size_floats`. -/
def position_size_floats (v : VBuffer) : Nat :=
  match v.format with
  | EFormat.Position => 3
  | EFormat.PositionNormal3 => 3
  | EFormat.PositionNormal1 => 4

/-- The method `VBuffer::normal_size_floats`. -/
def normal_size_floats (v : VBuffer) : Nat :=
  match v.format with
  | EFormat.Position => 0
  | EFormat.PositionNormal1 => 0
  | EFormat.PositionNormal3 => 3

/-- The method `VBuffer::vertex_size_floats`. -/
def vertex_size_floats (v : VBuffer) : Nat :=
  (v.position_size_floats + v.normal_size_floats) % SIZE_T_MOD

/-- The method `VBuffer::vertex_size_bytes`. -/
def vertex_size_bytes (v : VBuffer) : Nat :=
  (v.vertex_size_floats * sizeof_float) % SIZE_T_MOD

/-- The method `VBuffer::data_size_bytes`. -/
def data_size_bytes (v : VBuffer) : Nat :=
  (v.count * v.vertex_size_bytes) % SIZE_T_MOD

/-- The method `VBuffer::max_size_bytes`. -/
def max_size_bytes (v : VBuffer) : Nat :=
  (65536 * v.vertex_size_bytes) % SIZE_T_MOD

end VBuffer

/-! ## IBuffer -/

/-- The struct `IBuffer`. -/
structure IBuffer where
  vbo : Nat := 0
  ibo : Nat := 0
  count : Nat := 0
  deriving DecidableEq

/-! ## Path -/

/-- The type `Vec3f`: three floats. -/
structure Vec3f where
  x : FloatVal
  y : FloatVal
  z : FloatVal
  deriving DecidableEq

/-- The value `Vec3f::Zero()`. -/
def Vec3f.Zero : Vec3f := ⟨FloatVal.fin 0, FloatVal.fin 0, FloatVal.fin 0⟩

/-- The struct `Path::Endpoint`. -/
structure Endpoint where
  b_id : Nat := 0
  i_id : Nat := 0
  s_id : Nat := 0
  position : Vec3f := Vec3f.Zero
  deriving DecidableEq

/-- The struct `Path::Sub_Path`. -/
structure Sub_Path where
  first : Endpoint
  last : Endpoint
  deriving DecidableEq

/-- The method `Path::Sub_Path::contains`. -/
def Sub_Path.contains (sp : Sub_Path) (s_id : Nat) : Bool :=
  decide (sp.first.s_id ≤ s_id) && decide (s_id ≤ sp.last.s_id)

/-- Modelled from the spec: the enumeration `EMoveType` is declared in
`libslic3r/GCode/GCodeProcessor.hpp`, which is not part of the sources; the
move types are the ones the data model lists. -/
inductive EMoveType where
  | Noop
  | Retract
  | Unretract
  | Tool_change
  | Color_change
  | Pause_Print
  | Travel
  | Wipe
  | Extrude
  deriving DecidableEq, Repr

/-- The struct `Path`; `role` is the numeric value of the `ExtrusionRole`
enumerator (`erNone` is 0). -/
structure Path where
  type : EMoveType := EMoveType.Noop
  role : Nat := 0
  delta_extruder : FloatVal := FloatVal.fin 0
  height : FloatVal := FloatVal.fin 0
  width : FloatVal := FloatVal.fin 0
  feedrate : FloatVal := FloatVal.fin 0
  fan_speed : FloatVal := FloatVal.fin 0
  volumetric_rate : FloatVal := FloatVal.fin 0
  extruder_id : Nat := 0
  cp_color_id : Nat := 0
  sub_paths : List Sub_Path := []
  deriving DecidableEq

/-- Modelled from the spec: the struct `GCodeProcessor::MoveVertex` is declared
in `libslic3r/GCode/GCodeProcessor.hpp`, which is not part of the sources; a
move record "carries move type, extrusion role, 3D position, extruder id,
feedrate, fan speed, volumetric rate, layer height, extrusion width,
delta-extruder". -/
structure MoveVertex where
  type : EMoveType := EMoveType.Noop
  extrusion_role : Nat := 0
  position : Vec3f := Vec3f.Zero
  extruder_id : Nat := 0
  feedrate : FloatVal := FloatVal.fin 0
  fan_speed : FloatVal := FloatVal.fin 0
  volumetric_rate : FloatVal := FloatVal.fin 0
  height : FloatVal := FloatVal.fin 0
  width : FloatVal := FloatVal.fin 0
  delta_extruder : FloatVal := FloatVal.fin 0
  deriving DecidableEq

/-- Subtraction `a - b` in `size_t`. -/
def size_t_sub (a b : Nat) : Nat := (a % SIZE_T_MOD + (SIZE_T_MOD - b % SIZE_T_MOD)) % SIZE_T_MOD

/-- Addition `a + b` in `size_t`. -/
def size_t_add (a b : Nat) : Nat := (a + b) % SIZE_T_MOD

namespace Path

/-- The method `Path::vertices_count`:
`sub_paths.empty() ? 0 : sub_paths.back().last.s_id - sub_paths.front().first.s_id + 1`. -/
def vertices_count (p : Path) : Nat :=
  match p.sub_paths.head?, p.sub_paths.getLast? with
  | some f, some l => size_t_add (size_t_sub l.last.s_id f.first.s_id) 1
  | _, _ => 0

/-- The method `Path::contains`. -/
def contains (p : Path) (s_id : Nat) : Bool :=
  match p.sub_paths.head?, p.sub_paths.getLast? with
  | some f, some l => decide (f.first.s_id ≤ s_id) && decide (s_id ≤ l.last.s_id)
  | _, _ => false

/-- The loop of `Path::get_id_of_sub_path_containing`,
`for (int i = 0; i < n; ++i) if (sub_paths[i].contains(s_id)) return i;` followed
by `return -1`, entered at index `i`; the first argument bounds the number of
iterations left and is `n` at the call (the loop runs at most `n` times). The
index is inside the vector whenever the body runs. -/
def sub_path_loop (sub_paths : List Sub_Path) (s_id : Nat) (n : Int) : Nat → Nat → Int
  | 0, _ => -1
  | fuel + 1, i =>
    if (i : Int) < n then
      match sub_paths[i]? with
      | some sp => if sp.contains s_id then (i : Int) else sub_path_loop sub_paths s_id n fuel (i + 1)
      | none => -1
    else -1

/-- The method `Path::get_id_of_sub_path_containing`. -/
def get_id_of_sub_path_containing (p : Path) (s_id : Nat) : Int :=
  if p.sub_paths.isEmpty then -1
  else
    sub_path_loop p.sub_paths s_id (to_int p.sub_paths.length)
      (to_int p.sub_paths.length).toNat 0

/-- The method `Path::add_sub_path`. -/
def add_sub_path (p : Path) (move : MoveVertex) (b_id i_id s_id : Nat) : Path :=
  let endpoint : Endpoint := { b_id := b_id, i_id := i_id, s_id := s_id, position := move.position }
  { p with sub_paths := p.sub_paths ++ [{ first := endpoint, last := endpoint }] }

end Path

/-! ## RenderPath -/

/-- The type `Color = std::array<float, 3>`. -/
structure Color where
  c0 : FloatVal
  c1 : FloatVal
  c2 : FloatVal
  deriving DecidableEq

/-- Element access `color[i]` for `i` in `0 .. 2`. -/
def Color.get (c : Color) : Nat → FloatVal
  | 0 => c.c0
  | 1 => c.c1
  | _ => c.c2

/-- The struct `RenderPath`. -/
structure RenderPath where
  color : Color
  index_buffer_id : Nat
  path_id : Nat
  sizes : List Nat
  offsets : List Nat
  deriving DecidableEq

/-- The loop of `RenderPathPropertyLower::operator()` entered at index `i` with
the given number of components left, followed by the final
`return l.index_buffer_id < r.index_buffer_id`. -/
def lower_loop (l r : RenderPath) : Nat → Nat → Bool
  | 0, _ => decide (l.index_buffer_id < r.index_buffer_id)
  | k + 1, i =>
    if FloatVal.lt (l.color.get i) (r.color.get i) then true
    else if FloatVal.gt (l.color.get i) (r.color.get i) then false
    else lower_loop l r k (i + 1)

/-- The comparator `RenderPathPropertyLower`. -/
def RenderPathPropertyLower (l r : RenderPath) : Bool := lower_loop l r 3 0

/-- The comparison `operator==` of `std::array<float, 3>`: the components are
compared with `==`, in order. -/
def Color.eq (l r : Color) : Bool :=
  FloatVal.eq l.c0 r.c0 && FloatVal.eq l.c1 r.c1 && FloatVal.eq l.c2 r.c2

/-- The predicate `RenderPathPropertyEqual`. -/
def RenderPathPropertyEqual (l r : RenderPath) : Bool :=
  Color.eq l.color r.color && decide (l.index_buffer_id = r.index_buffer_id)

/-- The member `insert` of `std::set<RenderPath, RenderPathPropertyLower>`, on
the elements of the set listed in its order: the new element goes before the
first element it is ordered before, and is dropped when an element equivalent
to it (neither ordered before the other) comes first. -/
def set_insert (x : RenderPath) : List RenderPath → List RenderPath
  | [] => [x]
  | y :: ys =>
    if RenderPathPropertyLower x y then x :: y :: ys
    else if RenderPathPropertyLower y x then y :: set_insert x ys
    else y :: ys

/-! ## TBuffer -/

/-- The enumeration `TBuffer::ERenderPrimitiveType`. -/
inductive ERenderPrimitiveType where
  | Point
  | Line
  | Triangle
  deriving DecidableEq, Repr

/-- The struct `TBuffer`; `render_paths` lists the elements of the `std::set`
in its order. -/
structure TBuffer where
  render_primitive_type : ERenderPrimitiveType
  vertices : VBuffer := {}
  indices : List IBuffer := []
  shader : String := ""
  paths : List Path := []
  render_paths : List RenderPath := []
  visible : Bool := false

namespace TBuffer

/-- The method `TBuffer::max_vertices_per_segment`. -/
def max_vertices_per_segment (t : TBuffer) : Nat :=
  match t.render_primitive_type with
  | ERenderPrimitiveType.Point => 1
  | ERenderPrimitiveType.Line => 2
  | ERenderPrimitiveType.Triangle => 8

/-- The method `TBuffer::max_vertices_per_segment_size_floats`. -/
def max_vertices_per_segment_size_floats (t : TBuffer) : Nat :=
  (t.vertices.vertex_size_floats * t.max_vertices_per_segment) % SIZE_T_MOD

/-- The method `TBuffer::max_vertices_per_segment_size_bytes`. -/
def max_vertices_per_segment_size_bytes (t : TBuffer) : Nat :=
  (t.max_vertices_per_segment_size_floats * sizeof_float) % SIZE_T_MOD

/-- The method `TBuffer::indices_per_segment`. -/
def indices_per_segment (t : TBuffer) : Nat :=
  match t.render_primitive_type with
  | ERenderPrimitiveType.Point => 1
  | ERenderPrimitiveType.Line => 2
  | ERenderPrimitiveType.Triangle => 42

/-- The method `TBuffer::start_segment_vertex_offset`. -/
def start_segment_vertex_offset (_t : TBuffer) : Nat := 0

/-- The method `TBuffer::end_segment_vertex_offset`. -/
def end_segment_vertex_offset (t : TBuffer) : Nat :=
  match t.render_primitive_type with
  | ERenderPrimitiveType.Point => 0
  | ERenderPrimitiveType.Line => 1
  | ERenderPrimitiveType.Triangle => 36

/-- The method `TBuffer::has_data`:
`!vertices.vbos.empty() && vertices.vbos.front() != 0 && !indices.empty() && indices.front().ibo != 0`,
the operands of `&&` being evaluated from the left as far as needed. -/
def has_data (t : TBuffer) : Bool :=
  match t.vertices.vbos with
  | [] => false
  | vbo :: _ =>
    if vbo ≠ 0 then
      match t.indices with
      | [] => false
      | ibuffer :: _ => decide (ibuffer.ibo ≠ 0)
    else false

end TBuffer

/-! ## Extrusions::Range -/

/-- The struct `Extrusions::Range`. -/
structure Range where
  min : FloatVal
  max : FloatVal
  count : Nat
  deriving DecidableEq

namespace Range

/-- The method `Range::reset`. -/
def reset : Range := ⟨FloatVal.fin FLT_MAX, FloatVal.fin (-FLT_MAX), 0⟩

/-- The method `Range::update_from`. -/
def update_from (r : Range) (value : FloatVal) : Range :=
  { min := FloatVal.std_min r.min value
    max := FloatVal.std_max r.max value
    count := if FloatVal.ne value r.max && FloatVal.ne value r.min then (r.count + 1) % UINT_MOD
             else r.count }

/-- Successive calls of `update_from` on a range, one per value, in order. -/
def update_from_all (r : Range) (values : List FloatVal) : Range :=
  values.foldl update_from r

end Range

/-! ## Layers -/

/-- The struct `Layers::Endpoints`. -/
structure Layers.Endpoints where
  first : Nat := 0
  last : Nat := 0
  deriving DecidableEq

/-- The class `Layers`; a `double` is a `FloatVal` like a `float`. -/
structure Layers where
  m_zs : List FloatVal := []
  m_endpoints : List Layers.Endpoints := []
  deriving DecidableEq

namespace Layers

/-- The method `Layers::append`. -/
def append (L : Layers) (z : FloatVal) (endpoints : Layers.Endpoints) : Layers :=
  { m_zs := L.m_zs ++ [z], m_endpoints := L.m_endpoints ++ [endpoints] }

/-- The method `Layers::reset`. -/
def reset (_L : Layers) : Layers :=
  { m_zs := [], m_endpoints := [] }

/-- The method `Layers::size`. -/
def size (L : Layers) : Nat := L.m_zs.length

/-- The method `Layers::empty`. -/
def empty (L : Layers) : Bool := L.m_zs.isEmpty

/-- The method `Layers::get_zs`. -/
def get_zs (L : Layers) : List FloatVal := L.m_zs

/-- The method `Layers::get_endpoints`. -/
def get_endpoints (L : Layers) : List Layers.Endpoints := L.m_endpoints

/-- The method `Layers::get_z_at`. -/
def get_z_at (L : Layers) (id : Nat) : FloatVal :=
  match L.m_zs[id]? with
  | some z => z
  | none => FloatVal.fin 0

/-- The method `Layers::get_endpoints_at`. -/
def get_endpoints_at (L : Layers) (id : Nat) : Layers.Endpoints :=
  match L.m_endpoints[id]? with
  | some e => e
  | none => {}

end Layers

/-- A call of one of the two mutating methods of `Layers`. -/
inductive LayersCall where
  | append (z : FloatVal) (endpoints : Layers.Endpoints)
  | reset
  deriving DecidableEq

/-- The effect of one call on a `Layers` value. -/
def Layers.call (L : Layers) : LayersCall → Layers
  | LayersCall.append z endpoints => L.append z endpoints
  | LayersCall.reset => L.reset

/-- The effect of a sequence of calls, in order. -/
def Layers.run (L : Layers) (calls : List LayersCall) : Layers :=
  calls.foldl Layers.call L

/-! ## Extrusions -/

/-- The expression `1 << i` stored in an `unsigned int`: `2^i` for `i < 32`.
For `i >= 32` C++ leaves the shift undefined; the value here is 0 then. -/
def shl_one (i : Nat) : Nat := 2 ^ i % UINT_MOD

/-- The struct `Extrusions::Ranges`. -/
structure Ranges where
  height : Range
  width : Range
  feedrate : Range
  fan_speed : Range
  volumetric_rate : Range
  deriving DecidableEq

/-- The method `Ranges::reset`. -/
def Ranges.reset (_r : Ranges) : Ranges :=
  { height := Range.reset, width := Range.reset, feedrate := Range.reset,
    fan_speed := Range.reset, volumetric_rate := Range.reset }

/-- The struct `Extrusions`. -/
structure Extrusions where
  role_visibility_flags : Nat := 0
  ranges : Ranges := Ranges.reset ⟨Range.reset, Range.reset, Range.reset, Range.reset, Range.reset⟩
  deriving DecidableEq

namespace Extrusions

/-- The method `Extrusions::reset_role_visibility_flags`:
`role_visibility_flags = 0; for (unsigned int i = 0; i < erCount; ++i) role_visibility_flags |= 1 << i;`.
The enumerator `erCount` of `ExtrusionRole` is declared outside the header and
is a parameter. -/
def reset_role_visibility_flags (erCount : Nat) (e : Extrusions) : Extrusions :=
  { e with role_visibility_flags := (List.range erCount).foldl (fun flags i => flags ||| shl_one i) 0 }

/-- The method `Extrusions::reset_ranges`. -/
def reset_ranges (e : Extrusions) : Extrusions :=
  { e with ranges := e.ranges.reset }

end Extrusions

/-! ## GCodeViewer -/

/-- The enumeration `EViewType`. -/
inductive EViewType where
  | FeatureType
  | Height
  | Width
  | Feedrate
  | FanSpeed
  | VolumetricRate
  | Tool
  | ColorPrint
  | Count
  deriving DecidableEq, Repr

/-- The class `GCodeViewer`, named `Viewer` inside the namespace of this
file: the data members whose types the header declares
(the bounding boxes, tool colors, shells, sequential view and time statistics
have types declared elsewhere and are read by no method below). -/
structure Viewer where
  m_gl_data_initialized : Bool := false
  m_last_result_id : Nat := 0
  m_moves_count : Nat := 0
  m_buffers : List TBuffer := []
  m_layers : Layers := {}
  m_layers_z_range : Nat × Nat := (0, 0)
  m_roles : List Nat := []
  m_extruders_count : Nat := 0
  m_extruder_ids : List Nat := []
  m_extrusions : Extrusions := {}
  m_view_type : EViewType := EViewType.FeatureType
  m_legend_enabled : Bool := true

/-- The method `GCodeViewer::get_view_type`. -/
def Viewer.get_view_type (v : Viewer) : EViewType := v.m_view_type

/-- The method `GCodeViewer::set_view_type`. -/
def Viewer.set_view_type (v : Viewer) (type : EViewType) : Viewer :=
  let type := if type = EViewType.Count then EViewType.FeatureType else type
  { v with m_view_type := type }

/-- The method `GCodeViewer::get_toolpath_role_visibility_flags`. -/
def Viewer.get_toolpath_role_visibility_flags (v : Viewer) : Nat :=
  v.m_extrusions.role_visibility_flags

/-- The method `GCodeViewer::set_toolpath_role_visibility_flags`. -/
def Viewer.set_toolpath_role_visibility_flags (v : Viewer) (flags : Nat) : Viewer :=
  { v with m_extrusions := { v.m_extrusions with role_visibility_flags := flags } }

/-- The method `GCodeViewer::is_visible(ExtrusionRole)`:
`role < erCount && (m_extrusions.role_visibility_flags & (1 << role)) != 0`; the
role is the numeric value of the enumerator, `erCount` a parameter. -/
def Viewer.is_visible (erCount : Nat) (v : Viewer) (role : Nat) : Bool :=
  decide (role < erCount) && decide (v.m_extrusions.role_visibility_flags &&& shl_one role ≠ 0)

/-- The method `GCodeViewer::is_visible(const Path&)`. -/
def Viewer.is_visible_path (erCount : Nat) (v : Viewer) (path : Path) : Bool :=
  Viewer.is_visible erCount v path.role

/-- A sequence of calls of `set_view_type`, in order. -/
def Viewer.set_view_types (v : Viewer) (types : List EViewType) : Viewer :=
  types.foldl Viewer.set_view_type v

/-! ## Chunks of a loaded category (specification model) -/

/-- Specification of "`m` is the smaller of `a` and `b`": one of the two, and
not above either. -/
def IsSmallerOf (m a b : FloatVal) : Prop :=
  (m = a ∨ m = b) ∧ FloatVal.le m a = true ∧ FloatVal.le m b = true

/-- Specification of "`m` is the larger of `a` and `b`": one of the two, and
not below either. -/
def IsLargerOf (m a b : FloatVal) : Prop :=
  (m = a ∨ m = b) ∧ FloatVal.le a m = true ∧ FloatVal.le b m = true

/-- Specification of the batch ordering: the key
`(color[0], color[1], color[2], index_buffer_id)` of `l` is strictly smaller
than the key of `r` in lexicographic order. -/
def KeyLexLess (l r : RenderPath) : Prop :=
  FloatVal.lt l.color.c0 r.color.c0 = true ∨
  (FloatVal.eq l.color.c0 r.color.c0 = true ∧
    (FloatVal.lt l.color.c1 r.color.c1 = true ∨
    (FloatVal.eq l.color.c1 r.color.c1 = true ∧
      (FloatVal.lt l.color.c2 r.color.c2 = true ∨
      (FloatVal.eq l.color.c2 r.color.c2 = true ∧ l.index_buffer_id < r.index_buffer_id)))))

/-- No component of the color is NaN. -/
def Color.noNaN (c : Color) : Prop :=
  c.c0 ≠ FloatVal.nan ∧ c.c1 ≠ FloatVal.nan ∧ c.c2 ≠ FloatVal.nan

/-- Specification of "the entries appended since the last reset": the arguments
of the `append` calls that follow the last `reset` of the sequence, in order. -/
def entries_since_reset (calls : List LayersCall) : List (FloatVal × Layers.Endpoints) :=
  calls.foldl
    (fun acc c =>
      match c with
      | LayersCall.append z endpoints => acc ++ [(z, endpoints)]
      | LayersCall.reset => [])
    []

/-- Specification of "in non-decreasing order": each value is `<=` the next. -/
def NonDecreasing (zs : List FloatVal) : Prop :=
  zs.Chain' (fun a b => FloatVal.le a b = true)

/-- Specification of the data-model invariant of the sub-paths of a path: each
sub-path has `first.s_id <= last.s_id`, and each next sub-path starts at the
move after the last move of the previous one. -/
def Contiguous (sps : List Sub_Path) : Prop :=
  (∀ sp ∈ sps, sp.first.s_id ≤ sp.last.s_id) ∧
  sps.Chain' (fun a b => b.first.s_id = a.last.s_id + 1)

/-- Specification of "the number of move ids the sub-paths cover": the sum over
the sub-paths of `last.s_id - first.s_id + 1`. -/
def covered_moves (sps : List Sub_Path) : Nat :=
  (sps.map (fun sp => sp.last.s_id - sp.first.s_id + 1)).sum

/-- The `n` sub-paths that hold one move each, the moves `0 .. n - 1` in
order. -/
def unit_sub_paths (n : Nat) : List Sub_Path :=
  (List.range n).map (fun i => { first := { s_id := i }, last := { s_id := i } })

/-- Number of distinct values of a sequence. -/
def distinct_count (vs : List FloatVal) : Nat := vs.dedup.length

/-- The integers `1, 2, ..., N` passed as `float` arguments. -/
def float_seq (N : Nat) : List FloatVal := (List.range' 1 N).map float_of_nat

/-! # Theorems -/

/-! ## VBuffer capacity -/

/-- C1: for every vertex format `max_size_bytes()` is the byte size of 65 536
vertices, the vertex size being positive; hence a chunk of `n` vertices whose
byte size `n * vertex_size_bytes()` does not exceed `max_size_bytes()` has at
most 65 536 vertices, and each of its vertex indices `i < n` is a value of the
16-bit type `IBufferType`. -/
theorem max_size_bytes_bounds_vertex_index (v : VBuffer) :
    v.max_size_bytes = 65536 * v.vertex_size_bytes ∧ 0 < v.vertex_size_bytes ∧
    ∀ n : Nat, n * v.vertex_size_bytes ≤ v.max_size_bytes →
      n ≤ 65536 ∧ ∀ i : Nat, i < n → i ≤ 65535 ∧ i < IBufferType_MOD := by
  obtain ⟨fmt, vbos, sizes, count⟩ := v
  cases fmt <;>
    simp only [VBuffer.max_size_bytes, VBuffer.vertex_size_bytes, VBuffer.vertex_size_floats,
      VBuffer.position_size_floats, VBuffer.normal_size_floats] <;>
    norm_num <;> intro n hn <;> refine ⟨by omega, fun i hi => ⟨by omega, by omega⟩⟩

/-! ## TBuffer segment footprint -/

/-- C3: `max_vertices_per_segment()` is 1 for Point, 2 for Line and 8 for
Triangle; `indices_per_segment()` is 1 for Point, 2 for Line and 42 for
Triangle, and 42 is 3 indices times 14 triangles. -/
theorem segment_footprint_by_primitive (t : TBuffer) :
    (t.max_vertices_per_segment, t.indices_per_segment) =
      (match t.render_primitive_type with
       | ERenderPrimitiveType.Point => (1, 1)
       | ERenderPrimitiveType.Line => (2, 2)
       | ERenderPrimitiveType.Triangle => (8, 42)) ∧
    (42 : Nat) = 3 * 14 := by
  unfold TBuffer.max_vertices_per_segment TBuffer.indices_per_segment
  cases t.render_primitive_type <;> simp

/-- C4: `start_segment_vertex_offset()` is 0; `end_segment_vertex_offset()` is
0 for Point, 1 for Line and 36 = 3 * (13 - 1) for Triangle; and for every
primitive kind start offset <= end offset < `indices_per_segment()`. -/
theorem segment_vertex_offsets (t : TBuffer) :
    t.start_segment_vertex_offset = 0 ∧
    t.end_segment_vertex_offset =
      (match t.render_primitive_type with
       | ERenderPrimitiveType.Point => 0
       | ERenderPrimitiveType.Line => 1
       | ERenderPrimitiveType.Triangle => 36) ∧
    (36 : Nat) = 3 * (13 - 1) ∧
    t.start_segment_vertex_offset ≤ t.end_segment_vertex_offset ∧
    t.end_segment_vertex_offset < t.indices_per_segment := by
  unfold TBuffer.start_segment_vertex_offset TBuffer.end_segment_vertex_offset
    TBuffer.indices_per_segment
  cases t.render_primitive_type <;> simp

/-! ## Chunks of a loaded category (specification model) -/

/-- Comparison `<` of two finite floats. -/
theorem FloatVal.lt_fin (a b : ℚ) :
    FloatVal.lt (FloatVal.fin a) (FloatVal.fin b) = decide (a < b) := rfl

/-- Comparison `!=` of two finite floats. -/
theorem FloatVal.ne_fin (a b : ℚ) :
    FloatVal.ne (FloatVal.fin a) (FloatVal.fin b) = decide (a ≠ b) := by
  simp [FloatVal.ne, FloatVal.eq]

/-- Integers up to `2^24` convert to `float` exactly. -/
theorem float_of_nat_exact (n : Nat) (h : n ≤ 2 ^ 24) : float_of_nat n = FloatVal.fin n := by
  unfold float_of_nat
  rw [if_pos h]

/-- The integer `2^24 + 1` rounds to the float `2^24`. -/
theorem float_of_nat_16777217 : float_of_nat 16777217 = FloatVal.fin 16777216 := by
  have hlog : Nat.log2 16777217 = 24 := by
    apply Nat.le_antisymm
    · exact Nat.lt_succ_iff.mp ((Nat.log2_lt (by norm_num)).mpr (by norm_num))
    · exact (Nat.le_log2 (by norm_num)).mpr (by norm_num)
  unfold float_of_nat
  simp only [hlog]
  norm_num [FLT_MAX]

/-- The float sequence `1 .. N + 1` is the sequence `1 .. N` followed by `N + 1`. -/
theorem float_seq_succ (N : Nat) : float_seq (N + 1) = float_seq N ++ [float_of_nat (N + 1)] := by
  unfold float_seq
  rw [List.range'_concat, List.map_append]
  simp [Nat.add_comm]

/-- One more value on a range updated from a list of values. -/
theorem Range.update_from_all_append (r : Range) (vs : List FloatVal) (v : FloatVal) :
    Range.update_from_all r (vs ++ [v]) = Range.update_from (Range.update_from_all r vs) v := by
  simp [Range.update_from_all, List.foldl_append]

/-- A reset range updated with the floats `1 .. n + 1`, all of them exact. -/
theorem Range.update_from_all_float_seq (n : Nat) (h : n + 1 ≤ 2 ^ 24) :
    Range.update_from_all Range.reset (float_seq (n + 1)) =
      ⟨FloatVal.fin 1, FloatVal.fin ((n + 1 : Nat) : ℚ), n + 1⟩ := by
  induction n with
  | zero => decide
  | succ k ih =>
    rw [float_seq_succ, Range.update_from_all_append, ih (by omega), float_of_nat_exact _ h]
    have h1 : ¬ (((k + 1 + 1 : Nat) : ℚ) < 1) := by
      push_cast; linarith [(Nat.cast_nonneg k : (0 : ℚ) ≤ k)]
    have h2 : ((k + 1 : Nat) : ℚ) < ((k + 1 + 1 : Nat) : ℚ) := by
      push_cast; linarith
    have h3 : ((k + 1 + 1 : Nat) : ℚ) ≠ 1 := by
      push_cast; linarith [(Nat.cast_nonneg k : (0 : ℚ) ≤ k)]
    have h4 : (k + 1 + 1) % UINT_MOD = k + 1 + 1 := Nat.mod_eq_of_lt (by norm_num [UINT_MOD]; omega)
    simp only [Range.update_from, FloatVal.std_min, FloatVal.std_max, FloatVal.lt_fin,
      FloatVal.ne_fin, decide_eq_true_eq, h1, h2, h3, h4, ne_eq, (ne_of_gt h2), not_false_eq_true,
      decide_True, decide_False, Bool.and_self, if_true, if_false, Bool.false_eq_true]

/-- On floats that are not NaN, `std::min` returns the smaller argument. -/
theorem FloatVal.std_min_smaller (a b : FloatVal) (ha : a ≠ FloatVal.nan) (hb : b ≠ FloatVal.nan) :
    IsSmallerOf (FloatVal.std_min a b) a b := by
  cases a <;> cases b <;> simp_all [IsSmallerOf, FloatVal.std_min, FloatVal.le, FloatVal.lt, FloatVal.eq]
  rename_i x y
  rcases lt_trichotomy y x with h | h | h
  · simp [h, FloatVal.lt, FloatVal.eq, le_of_lt h]
  · simp [h, FloatVal.lt, FloatVal.eq]
  · simp [h, not_lt_of_gt h, FloatVal.lt, FloatVal.eq]

/-- On floats that are not NaN, `std::max` returns the larger argument. -/
theorem FloatVal.std_max_larger (a b : FloatVal) (ha : a ≠ FloatVal.nan) (hb : b ≠ FloatVal.nan) :
    IsLargerOf (FloatVal.std_max a b) a b := by
  cases a <;> cases b <;> simp_all [IsLargerOf, FloatVal.std_max, FloatVal.le, FloatVal.lt, FloatVal.eq]
  rename_i x y
  rcases lt_trichotomy x y with h | h | h
  · simp [h, FloatVal.lt, FloatVal.eq, le_of_lt h]
  · simp [h, FloatVal.lt, FloatVal.eq]
  · simp [h, not_lt_of_gt h, FloatVal.lt, FloatVal.eq]

/-- On floats that are not NaN, `!=` is difference of the values. -/
theorem FloatVal.ne_iff (a b : FloatVal) (ha : a ≠ FloatVal.nan) (hb : b ≠ FloatVal.nan) :
    FloatVal.ne a b = true ↔ a ≠ b := by
  cases a <;> cases b <;> simp_all [FloatVal.ne, FloatVal.eq]

/-- The counter after `update_from`, in terms of the IEEE comparison `!=`. -/
theorem Range.update_from_count (r : Range) (v : FloatVal) :
    (r.update_from v).count =
      if FloatVal.ne v r.max = true ∧ FloatVal.ne v r.min = true then (r.count + 1) % UINT_MOD
      else r.count := by
  simp [Range.update_from]

/-- C5, as the code decides it: for every Range `r` and value `v`, none of
`r.min`, `r.max`, `v` being NaN, `update_from(v)` sets `min` to the smaller of
`r.min` and `v` and `max` to the larger of `r.max` and `v`; `count` becomes
`(r.count + 1) mod 2^32` when `v` differs from both bounds before the call, an
increase by exactly 1 below the largest `unsigned int`, and is unchanged
otherwise. -/
theorem update_from_widens_and_counts (r : Range) (v : FloatVal)
    (hmin : r.min ≠ FloatVal.nan) (hmax : r.max ≠ FloatVal.nan) (hv : v ≠ FloatVal.nan) :
    IsSmallerOf (r.update_from v).min r.min v ∧
    IsLargerOf (r.update_from v).max r.max v ∧
    (v ≠ r.min ∧ v ≠ r.max → (r.update_from v).count = (r.count + 1) % UINT_MOD) ∧
    (v ≠ r.min ∧ v ≠ r.max → r.count + 1 < UINT_MOD → (r.update_from v).count = r.count + 1) ∧
    (¬ (v ≠ r.min ∧ v ≠ r.max) → (r.update_from v).count = r.count) := by
  have hcount : (r.update_from v).count =
      if v ≠ r.min ∧ v ≠ r.max then (r.count + 1) % UINT_MOD else r.count := by
    rw [Range.update_from_count]
    have h1 := FloatVal.ne_iff v r.max hv hmax
    have h2 := FloatVal.ne_iff v r.min hv hmin
    by_cases hc : v ≠ r.min ∧ v ≠ r.max
    · rw [if_pos hc, if_pos ⟨h1.mpr hc.2, h2.mpr hc.1⟩]
    · rw [if_neg hc, if_neg (fun h => hc ⟨h2.mp h.2, h1.mp h.1⟩)]
  refine ⟨FloatVal.std_min_smaller r.min v hmin hv, FloatVal.std_max_larger r.max v hmax hv,
    ?_, ?_, ?_⟩
  · intro h; rw [hcount, if_pos h]
  · intro h hc; rw [hcount, if_pos h, Nat.mod_eq_of_lt hc]
  · intro h; rw [hcount, if_neg h]

/-- Witness of C5: the range `[2, 7]` with 3 counted values, updated from 9. -/
theorem update_from_widens_and_counts_witness :
    (Range.update_from ⟨FloatVal.fin 2, FloatVal.fin 7, 3⟩ (FloatVal.fin 9)).count = 3 + 1 :=
  (update_from_widens_and_counts ⟨FloatVal.fin 2, FloatVal.fin 7, 3⟩ (FloatVal.fin 9)
    (by decide) (by decide) (by decide)).2.2.2.1 (by decide) (by decide)

/-- Counterexample to C5 as stated: with `r.min` NaN, `update_from(3)` leaves
`min` NaN, which is not the smaller of NaN and 3; `update_from(NaN)` on the
range `[0, 10]` leaves `min = 0`, which does not compare below NaN; and with
`count` the largest `unsigned int`, `update_from(1)` on the range `[0, 0]` wraps
`count` to 0 instead of increasing it by 1. -/
theorem update_from_nan_and_wrap :
    ¬ IsSmallerOf (Range.update_from ⟨FloatVal.nan, FloatVal.fin 0, 0⟩ (FloatVal.fin 3)).min
        FloatVal.nan (FloatVal.fin 3) ∧
    ¬ IsSmallerOf (Range.update_from ⟨FloatVal.fin 0, FloatVal.fin 10, 0⟩ FloatVal.nan).min
        (FloatVal.fin 0) FloatVal.nan ∧
    (FloatVal.fin 1 ≠ FloatVal.fin 0 ∧
      (Range.update_from ⟨FloatVal.fin 0, FloatVal.fin 0, 4294967295⟩ (FloatVal.fin 1)).count = 0 ∧
      (Range.update_from ⟨FloatVal.fin 0, FloatVal.fin 0, 4294967295⟩ (FloatVal.fin 1)).count
        ≠ 4294967295 + 1) := by
  refine ⟨?_, ?_, by decide, by decide, by decide⟩
  · intro h
    have h2 := h.2.1
    revert h2
    decide
  · intro h
    have h2 := h.2.2
    revert h2
    decide

/-- C6, as the code decides it: for every `N` with `1 <= N <= 2^24`, the range
in which every integer is a `float`, a reset Range updated from the sequence
`1, 2, ..., N` in order has `min = 1`, `max = N` and `count = N`. -/
theorem update_from_increasing_sequence (N : Nat) (h1 : 1 ≤ N) (h2 : N ≤ 2 ^ 24) :
    Range.update_from_all Range.reset (float_seq N) =
      { min := FloatVal.fin 1, max := FloatVal.fin (N : ℚ), count := N } := by
  obtain ⟨n, rfl⟩ : ∃ n, N = n + 1 := ⟨N - 1, by omega⟩
  exact Range.update_from_all_float_seq n h2

/-- Witness of C6: the sequence `1, 2, 3`. -/
theorem update_from_increasing_sequence_witness :
    Range.update_from_all Range.reset (float_seq 3) =
      { min := FloatVal.fin 1, max := FloatVal.fin ((3 : Nat) : ℚ), count := 3 } :=
  update_from_increasing_sequence 3 (by decide) (by decide)

/-- Counterexample to C6 as stated: for `N = 2^24 + 1 = 16777217` the last
value of the sequence, passed as a `float`, is `16777216`, which equals the
current `max`; the range ends with `max = 16777216` and `count = 16777216`,
neither of which is `N`. -/
theorem increasing_sequence_16777217_not_exact :
    (Range.update_from_all Range.reset (float_seq 16777217)).max = FloatVal.fin 16777216 ∧
    (Range.update_from_all Range.reset (float_seq 16777217)).count = 16777216 ∧
    ¬ (Range.update_from_all Range.reset (float_seq 16777217) =
        { min := FloatVal.fin 1, max := FloatVal.fin ((16777217 : Nat) : ℚ), count := 16777217 }) := by
  have h : Range.update_from_all Range.reset (float_seq 16777217) =
      ⟨FloatVal.fin 1, FloatVal.fin 16777216, 16777216⟩ := by
    rw [show (16777217 : Nat) = 16777215 + 1 + 1 by norm_num, float_seq_succ,
      Range.update_from_all_append, Range.update_from_all_float_seq 16777215 (by norm_num)]
    rw [show (16777215 + 1 + 1 : Nat) = 16777217 by norm_num, float_of_nat_16777217]
    norm_num [Range.update_from, FloatVal.std_min, FloatVal.std_max, FloatVal.lt_fin,
      FloatVal.ne_fin]
  rw [h]
  refine ⟨rfl, rfl, ?_⟩
  intro hc
  have := congrArg Range.count hc
  revert this
  norm_num

/-- C7, as the code decides it: a reset Range updated from the constant
sequence `5, 5, 5` has `min = max = 5` and `count = 1`, the first value being
counted. -/
theorem update_from_constant_sequence :
    Range.update_from_all Range.reset [FloatVal.fin 5, FloatVal.fin 5, FloatVal.fin 5] =
      { min := FloatVal.fin 5, max := FloatVal.fin 5, count := 1 } := by
  decide

/-- Counterexample to C7 as stated: after the sequence `5, 5, 5` the count is
not 0. -/
theorem constant_sequence_count_ne_zero :
    (Range.update_from_all Range.reset [FloatVal.fin 5, FloatVal.fin 5, FloatVal.fin 5]).count ≠ 0 := by
  decide

/-! ## Path -/

/-- Subtraction in `size_t` of a smaller value from a larger one. -/
theorem size_t_sub_of_le (a b : Nat) (hab : b ≤ a) (ha : a < SIZE_T_MOD) :
    size_t_sub a b = a - b := by
  unfold size_t_sub
  simp only [SIZE_T_MOD] at *
  omega

/-- C9, as the code decides it: a Path with no sub-paths has
`vertices_count() = 0`; with at least one sub-path whose last sub-path's
`last.s_id` is a `size_t` not smaller than the first sub-path's `first.s_id`,
`vertices_count()` is `last.s_id - first.s_id + 1` reduced modulo `2^64`, which
is `last.s_id - first.s_id + 1` itself whenever that is below `2^64`. -/
theorem vertices_count_span (p : Path) :
    (p.sub_paths = [] → p.vertices_count = 0) ∧
    ∀ f l : Sub_Path, p.sub_paths.head? = some f → p.sub_paths.getLast? = some l →
      f.first.s_id ≤ l.last.s_id → l.last.s_id < SIZE_T_MOD →
      p.vertices_count = (l.last.s_id - f.first.s_id + 1) % SIZE_T_MOD ∧
      (l.last.s_id - f.first.s_id + 1 < SIZE_T_MOD →
        p.vertices_count = l.last.s_id - f.first.s_id + 1) := by
  constructor
  · intro h
    simp [Path.vertices_count, h]
  · intro f l hf hl hle hlt
    have hvc : p.vertices_count = (l.last.s_id - f.first.s_id + 1) % SIZE_T_MOD := by
      simp only [Path.vertices_count, hf, hl, size_t_add, size_t_sub_of_le _ _ hle hlt]
    exact ⟨hvc, fun h => by rw [hvc, Nat.mod_eq_of_lt h]⟩

/-- Witness of C9: a path of two sub-paths covering the moves 10 .. 14 and
15 .. 30 has 21 vertices. -/
theorem vertices_count_span_witness :
    Path.vertices_count { sub_paths := [⟨{ s_id := 10 }, { s_id := 14 }⟩, ⟨{ s_id := 15 }, { s_id := 30 }⟩] }
      = 30 - 10 + 1 :=
  ((vertices_count_span
      { sub_paths := [⟨{ s_id := 10 }, { s_id := 14 }⟩, ⟨{ s_id := 15 }, { s_id := 30 }⟩] }).2
    ⟨{ s_id := 10 }, { s_id := 14 }⟩ ⟨{ s_id := 15 }, { s_id := 30 }⟩ rfl rfl
    (by decide) (by decide)).2 (by decide)

/-- Counterexample to C9 as stated: for the single sub-path from move 0 to
move `2^64 - 1`, the largest `size_t`, the addition of 1 wraps and
`vertices_count()` is 0, not `last.s_id - first.s_id + 1 = 2^64`. -/
theorem vertices_count_wraps :
    Path.vertices_count { sub_paths := [⟨{ s_id := 0 }, { s_id := 18446744073709551615 }⟩] } = 0 ∧
    Path.vertices_count { sub_paths := [⟨{ s_id := 0 }, { s_id := 18446744073709551615 }⟩] }
      ≠ 18446744073709551615 - 0 + 1 := by
  decide

/-- The conversion to `int` keeps a vector size below `2^31`. -/
theorem to_int_of_lt (n : Nat) (h : n < 2 ^ 31) : to_int n = (n : Int) := by
  unfold to_int
  have h1 : n % 2 ^ 32 = n := Nat.mod_eq_of_lt (by omega)
  rw [h1, if_pos h]

/-- The search loop over the whole vector, entered at index `i`: it returns
`-1` when no sub-path from `i` on contains the move, and otherwise the first
index from `i` on of a sub-path that does. -/
theorem Path.sub_path_loop_spec (sps : List Sub_Path) (s : Nat) :
    ∀ (fuel i : Nat), i + fuel = sps.length →
      (Path.sub_path_loop sps s (sps.length : Int) fuel i = -1 ∧
        ∀ (j : Nat) (sp : Sub_Path), i ≤ j → sps[j]? = some sp → sp.contains s = false) ∨
      (∃ (k : Nat) (sp : Sub_Path), i ≤ k ∧ k < sps.length ∧
        Path.sub_path_loop sps s (sps.length : Int) fuel i = (k : Int) ∧
        sps[k]? = some sp ∧ sp.contains s = true ∧
        ∀ (j : Nat) (sp' : Sub_Path), i ≤ j → j < k → sps[j]? = some sp' →
          sp'.contains s = false) := by
  intro fuel
  induction fuel with
  | zero =>
    intro i hi
    left
    refine ⟨rfl, ?_⟩
    intro j sp hij hj
    have hlt : j < sps.length := (List.getElem?_eq_some_iff.mp hj).1
    omega
  | succ fuel ih =>
    intro i hi
    have hlt : i < sps.length := by omega
    have hget : sps[i]? = some sps[i] := List.getElem?_eq_getElem hlt
    have hcond : (i : Int) < (sps.length : Int) := by exact_mod_cast hlt
    unfold Path.sub_path_loop
    rw [if_pos hcond, hget]
    by_cases hc : sps[i].contains s = true
    · right
      refine ⟨i, sps[i], le_refl i, hlt, ?_, hget, hc, ?_⟩
      · simp [hc]
      · intro j sp' h1 h2; omega
    · have hc' : sps[i].contains s = false := by simpa using hc
      simp only [hc', Bool.false_eq_true, if_false]
      rcases ih (i + 1) (by omega) with ⟨hr, hall⟩ | ⟨k, sp, hik, hk, hr, hsp, hcs, hall⟩
      · left
        refine ⟨hr, ?_⟩
        intro j sp hij hj
        rcases Nat.eq_or_lt_of_le hij with rfl | hlt'
        · rw [hget] at hj
          cases hj
          exact hc'
        · exact hall j sp hlt' hj
      · right
        refine ⟨k, sp, by omega, hk, hr, hsp, hcs, ?_⟩
        intro j sp' hij hjk hj
        rcases Nat.eq_or_lt_of_le hij with rfl | hlt'
        · rw [hget] at hj
          cases hj
          exact hc'
        · exact hall j sp' hlt' hjk hj

/-- The method `Sub_Path::contains` is the test `first.s_id <= s <= last.s_id`. -/
theorem Sub_Path.contains_iff (sp : Sub_Path) (s : Nat) :
    sp.contains s = true ↔ sp.first.s_id ≤ s ∧ s ≤ sp.last.s_id := by
  simp [Sub_Path.contains]

/-- The search over a path of fewer than `2^31` sub-paths. -/
theorem Path.get_id_of_sub_path_containing_cases (p : Path) (s : Nat)
    (hlen : p.sub_paths.length < 2 ^ 31) :
    (p.get_id_of_sub_path_containing s = -1 ∧
      ∀ (j : Nat) (sp : Sub_Path), p.sub_paths[j]? = some sp → sp.contains s = false) ∨
    (∃ (k : Nat) (sp : Sub_Path), k < p.sub_paths.length ∧
      p.get_id_of_sub_path_containing s = (k : Int) ∧
      p.sub_paths[k]? = some sp ∧ sp.contains s = true ∧
      ∀ (j : Nat) (sp' : Sub_Path), j < k → p.sub_paths[j]? = some sp' →
        sp'.contains s = false) := by
  unfold Path.get_id_of_sub_path_containing
  by_cases he : p.sub_paths.isEmpty = true
  · left
    rw [if_pos he]
    refine ⟨rfl, ?_⟩
    intro j sp hj
    rw [List.isEmpty_iff.mp he] at hj
    simp at hj
  · rw [if_neg he, to_int_of_lt _ hlen, Int.toNat_ofNat]
    rcases Path.sub_path_loop_spec p.sub_paths s p.sub_paths.length 0 (by omega) with
      ⟨hr, hall⟩ | ⟨k, sp, _, hk, hr, hsp, hcs, hall⟩
    · left
      exact ⟨hr, fun j sp hj => hall j sp (Nat.zero_le j) hj⟩
    · right
      exact ⟨k, sp, hk, hr, hsp, hcs, fun j sp' hjk hj => hall j sp' (Nat.zero_le j) hjk hj⟩

/-- C8, as the code decides it: for every Path with fewer than `2^31`
sub-paths (the indices an `int` can return) and every move id `s`,
`get_id_of_sub_path_containing(s)` is `-1` exactly when no sub-path satisfies
`first.s_id <= s <= last.s_id`, in particular when there is no sub-path, and
otherwise it is the smallest index `i`, `0 <= i < sub_paths.size()`, of a
sub-path that satisfies it. -/
theorem get_id_of_sub_path_containing_spec (p : Path) (s : Nat)
    (hlen : p.sub_paths.length < 2 ^ 31) :
    (p.get_id_of_sub_path_containing s = -1 ↔
      ∀ sp ∈ p.sub_paths, ¬ (sp.first.s_id ≤ s ∧ s ≤ sp.last.s_id)) ∧
    (p.sub_paths = [] → p.get_id_of_sub_path_containing s = -1) ∧
    (p.get_id_of_sub_path_containing s ≠ -1 →
      ∃ (i : Nat) (sp : Sub_Path), i < p.sub_paths.length ∧
        p.get_id_of_sub_path_containing s = (i : Int) ∧
        p.sub_paths[i]? = some sp ∧ (sp.first.s_id ≤ s ∧ s ≤ sp.last.s_id) ∧
        ∀ (j : Nat) (sp' : Sub_Path), j < i → p.sub_paths[j]? = some sp' →
          ¬ (sp'.first.s_id ≤ s ∧ s ≤ sp'.last.s_id)) := by
  have hcases := Path.get_id_of_sub_path_containing_cases p s hlen
  refine ⟨?_, ?_, ?_⟩
  · constructor
    · intro hm sp hsp hin
      rcases hcases with ⟨_, hall⟩ | ⟨k, sp', _, hr, _, _, _⟩
      · obtain ⟨j, hj, rfl⟩ := List.getElem_of_mem hsp
        have := hall j _ (List.getElem?_eq_getElem hj)
        rw [(Sub_Path.contains_iff _ s).mpr hin] at this
        exact Bool.noConfusion this
      · rw [hr] at hm
        omega
    · intro hnone
      rcases hcases with ⟨hr, _⟩ | ⟨k, sp, _, _, hsp, hcs, _⟩
      · exact hr
      · exact absurd ((Sub_Path.contains_iff sp s).mp hcs)
          (hnone sp (List.getElem?_mem hsp))
  · intro he
    simp [Path.get_id_of_sub_path_containing, he]
  · intro hne
    rcases hcases with ⟨hr, _⟩ | ⟨k, sp, hk, hr, hsp, hcs, hall⟩
    · exact absurd hr hne
    · refine ⟨k, sp, hk, hr, hsp, (Sub_Path.contains_iff sp s).mp hcs, ?_⟩
      intro j sp' hjk hj hin
      have := hall j sp' hjk hj
      rw [(Sub_Path.contains_iff sp' s).mpr hin] at this
      exact Bool.noConfusion this

/-- Witness of C8: in a path whose sub-paths cover the moves 10 .. 14 and
15 .. 30, move 20 is not reported missing. -/
theorem get_id_of_sub_path_containing_spec_witness :
    Path.get_id_of_sub_path_containing
        { sub_paths := [⟨{ s_id := 10 }, { s_id := 14 }⟩, ⟨{ s_id := 15 }, { s_id := 30 }⟩] } 20 = -1 ↔
      ∀ sp ∈ [(⟨{ s_id := 10 }, { s_id := 14 }⟩ : Sub_Path), ⟨{ s_id := 15 }, { s_id := 30 }⟩],
        ¬ (sp.first.s_id ≤ 20 ∧ 20 ≤ sp.last.s_id) :=
  (get_id_of_sub_path_containing_spec
    { sub_paths := [⟨{ s_id := 10 }, { s_id := 14 }⟩, ⟨{ s_id := 15 }, { s_id := 30 }⟩] } 20
    (by decide)).1

/-- Counterexample to C8 as stated: in a path of `2^31` sub-paths, each going
from move 0 to move 0, the size converted to `int` is negative, the loop body
never runs and the search for move 0 returns `-1` although the sub-paths
contain it. -/
theorem get_id_of_sub_path_containing_int_size :
    Path.get_id_of_sub_path_containing
        { sub_paths := List.replicate (2 ^ 31) ⟨{ s_id := 0 }, { s_id := 0 }⟩ } 0 = -1 ∧
    ∃ sp ∈ List.replicate (2 ^ 31) (⟨{ s_id := 0 }, { s_id := 0 }⟩ : Sub_Path),
      sp.first.s_id ≤ 0 ∧ 0 ≤ sp.last.s_id := by
  constructor
  · unfold Path.get_id_of_sub_path_containing
    have hne : (List.replicate (2 ^ 31) (⟨{ s_id := 0 }, { s_id := 0 }⟩ : Sub_Path)).isEmpty = false := by
      rw [show (2 ^ 31 : Nat) = 2147483647 + 1 by norm_num, List.replicate_succ]
      rfl
    have hint : to_int (2 ^ 31) = -2147483648 := by decide
    simp only [hne, Bool.false_eq_true, if_false, List.length_replicate, hint]
    rfl
  · refine ⟨⟨{ s_id := 0 }, { s_id := 0 }⟩, ?_, le_refl _, le_refl _⟩
    rw [List.mem_replicate]
    exact ⟨by norm_num, rfl⟩

/-! ## RenderPath ordering -/

/-- Two floats that are not NaN are in exactly one of the relations `<`, `==`,
`>`. -/
theorem FloatVal.trichotomy (a b : FloatVal) (ha : a ≠ FloatVal.nan) (hb : b ≠ FloatVal.nan) :
    (FloatVal.lt a b = true ∧ FloatVal.eq a b = false ∧ FloatVal.lt b a = false) ∨
    (FloatVal.lt a b = false ∧ FloatVal.eq a b = true ∧ FloatVal.lt b a = false) ∨
    (FloatVal.lt a b = false ∧ FloatVal.eq a b = false ∧ FloatVal.lt b a = true) := by
  cases a <;> cases b <;> simp_all [FloatVal.lt, FloatVal.eq]
  rename_i x y
  rcases lt_trichotomy x y with h | h | h
  · exact Or.inl ⟨h, ne_of_lt h, le_of_lt h⟩
  · exact Or.inr (Or.inl ⟨le_of_eq h.symm, h, le_of_eq h⟩)
  · exact Or.inr (Or.inr ⟨le_of_lt h, ne_of_gt h, h⟩)

/-- The comparator written out: the loop over the three color components
followed by the comparison of the index buffer ids. -/
theorem RenderPathPropertyLower_unfold (l r : RenderPath) :
    RenderPathPropertyLower l r =
      if FloatVal.lt l.color.c0 r.color.c0 then true
      else if FloatVal.lt r.color.c0 l.color.c0 then false
      else if FloatVal.lt l.color.c1 r.color.c1 then true
      else if FloatVal.lt r.color.c1 l.color.c1 then false
      else if FloatVal.lt l.color.c2 r.color.c2 then true
      else if FloatVal.lt r.color.c2 l.color.c2 then false
      else decide (l.index_buffer_id < r.index_buffer_id) := rfl

/-- C10, as the code decides it: for RenderPaths `l` and `r` without NaN among
their color components, `RenderPathPropertyLower(l, r)` holds exactly when the
key `(color[0], color[1], color[2], index_buffer_id)` of `l` is strictly
smaller than the key of `r` in lexicographic order; and `path_id`, `sizes` and
`offsets` never influence the result. -/
theorem render_path_lower_is_lexicographic (l r : RenderPath)
    (hl : l.color.noNaN) (hr : r.color.noNaN) :
    (RenderPathPropertyLower l r = true ↔ KeyLexLess l r) ∧
    ∀ l' r' : RenderPath, l'.color = l.color → l'.index_buffer_id = l.index_buffer_id →
      r'.color = r.color → r'.index_buffer_id = r.index_buffer_id →
      RenderPathPropertyLower l' r' = RenderPathPropertyLower l r := by
  constructor
  · rw [RenderPathPropertyLower_unfold]
    unfold KeyLexLess
    rcases FloatVal.trichotomy _ _ hl.1 hr.1 with ⟨a, b, c⟩ | ⟨a, b, c⟩ | ⟨a, b, c⟩ <;>
    rcases FloatVal.trichotomy _ _ hl.2.1 hr.2.1 with ⟨d, e, f⟩ | ⟨d, e, f⟩ | ⟨d, e, f⟩ <;>
    rcases FloatVal.trichotomy _ _ hl.2.2 hr.2.2 with ⟨g, h, i⟩ | ⟨g, h, i⟩ | ⟨g, h, i⟩ <;>
    simp [a, b, c, d, e, f, g, h, i]
  · intro l' r' h1 h2 h3 h4
    simp only [RenderPathPropertyLower_unfold, h1, h2, h3, h4]

/-- Witness of C10: two batches of the same color in the index chunks 0 and 1. -/
theorem render_path_lower_is_lexicographic_witness :
    RenderPathPropertyLower
        ⟨⟨FloatVal.fin 1, FloatVal.fin 0, FloatVal.fin 0⟩, 0, 7, [3], [0]⟩
        ⟨⟨FloatVal.fin 1, FloatVal.fin 0, FloatVal.fin 0⟩, 1, 2, [], []⟩ = true ↔
      KeyLexLess
        ⟨⟨FloatVal.fin 1, FloatVal.fin 0, FloatVal.fin 0⟩, 0, 7, [3], [0]⟩
        ⟨⟨FloatVal.fin 1, FloatVal.fin 0, FloatVal.fin 0⟩, 1, 2, [], []⟩ :=
  (render_path_lower_is_lexicographic
    ⟨⟨FloatVal.fin 1, FloatVal.fin 0, FloatVal.fin 0⟩, 0, 7, [3], [0]⟩
    ⟨⟨FloatVal.fin 1, FloatVal.fin 0, FloatVal.fin 0⟩, 1, 2, [], []⟩
    (by unfold Color.noNaN; decide) (by unfold Color.noNaN; decide)).1

/-- Counterexample to C10 as stated: with a NaN first component on the left
the comparator skips that component and orders the colors `(NaN, 0, 0)` and
`(1, 1, 0)` by the second component, although the key of the first is not
smaller in lexicographic order (its first component is neither smaller than
nor equal to 1). -/
theorem render_path_lower_nan :
    RenderPathPropertyLower
        ⟨⟨FloatVal.nan, FloatVal.fin 0, FloatVal.fin 0⟩, 0, 0, [], []⟩
        ⟨⟨FloatVal.fin 1, FloatVal.fin 1, FloatVal.fin 0⟩, 0, 0, [], []⟩ = true ∧
    ¬ KeyLexLess
        ⟨⟨FloatVal.nan, FloatVal.fin 0, FloatVal.fin 0⟩, 0, 0, [], []⟩
        ⟨⟨FloatVal.fin 1, FloatVal.fin 1, FloatVal.fin 0⟩, 0, 0, [], []⟩ := by
  unfold KeyLexLess
  decide

/-! ## TBuffer data and vertex sizes -/

/-- C13: `has_data()` is true exactly when the buffer has at least one vertex
chunk id and at least one index chunk, and neither the first vertex chunk id
nor the first index chunk id is the unset sentinel 0; in particular a buffer
without vertex chunks or without index chunks has no data. -/
theorem has_data_iff (t : TBuffer) :
    (t.has_data = true ↔
      (∃ vbo rest, t.vertices.vbos = vbo :: rest ∧ vbo ≠ 0) ∧
      (∃ ibuffer rest, t.indices = ibuffer :: rest ∧ ibuffer.ibo ≠ 0)) ∧
    (t.vertices.vbos = [] → t.has_data = false) ∧
    (t.indices = [] → t.has_data = false) := by
  unfold TBuffer.has_data
  refine ⟨?_, ?_, ?_⟩
  · cases hv : t.vertices.vbos with
    | nil => simp
    | cons vbo rest =>
      cases hi : t.indices with
      | nil => simp
      | cons ibuffer irest =>
        by_cases h0 : vbo = 0 <;> simp [h0]
  · intro h
    simp [h]
  · intro h
    cases hv : t.vertices.vbos with
    | nil => rfl
    | cons vbo rest => simp [h]

/-- C15: `vertex_size_floats()` is `position_size_floats() + normal_size_floats()`,
which is 3 for `Position`, 4 for `PositionNormal1` and 6 for `PositionNormal3`,
and `vertex_size_bytes()` is `sizeof(float) = 4` times that value. -/
theorem vertex_size_by_format (v : VBuffer) :
    v.vertex_size_floats = v.position_size_floats + v.normal_size_floats ∧
    v.vertex_size_floats =
      (match v.format with
       | EFormat.Position => 3
       | EFormat.PositionNormal1 => 4
       | EFormat.PositionNormal3 => 6) ∧
    sizeof_float = 4 ∧
    v.vertex_size_bytes = 4 * v.vertex_size_floats := by
  obtain ⟨fmt, vbos, sizes, count⟩ := v
  cases fmt <;>
    simp only [VBuffer.vertex_size_bytes, VBuffer.vertex_size_floats,
      VBuffer.position_size_floats, VBuffer.normal_size_floats] <;>
    norm_num

/-! ## Range: counter and step -/

/-- One call of `update_from` raises the counter by at most 1. -/
theorem Range.update_from_count_le (r : Range) (v : FloatVal) :
    (r.update_from v).count ≤ r.count + 1 := by
  rw [Range.update_from_count]
  split_ifs
  · exact Nat.mod_le _ _
  · exact Nat.le_succ _

/-- The counter after a sequence of calls of `update_from`. -/
theorem Range.update_from_all_count_le (vs : List FloatVal) :
    ∀ r : Range, (Range.update_from_all r vs).count ≤ r.count + vs.length := by
  induction vs with
  | nil => intro r; simp [Range.update_from_all]
  | cons v vs ih =>
    intro r
    have h1 := ih (r.update_from v)
    have h2 := Range.update_from_count_le r v
    simp only [Range.update_from_all, List.foldl_cons, List.length_cons] at h1 ⊢
    omega

/-- C16, as the code decides it: starting from a reset Range, for every finite
sequence of values applied through `update_from`, `count` never exceeds the
number of values of the sequence, each call adding at most 1; it can exceed the
number of distinct values. -/
theorem count_le_number_of_values (vs : List FloatVal) :
    (Range.update_from_all Range.reset vs).count ≤ vs.length := by
  have h := Range.update_from_all_count_le vs Range.reset
  simpa [Range.reset] using h

/-- Counterexample to C16 as stated: the sequence `1, 3, 2, 2` has 3 distinct
values and leaves `count = 4`; the second 2 lies strictly between the bounds 1
and 3 and is counted again. -/
theorem count_exceeds_distinct_values :
    (Range.update_from_all Range.reset
      [FloatVal.fin 1, FloatVal.fin 3, FloatVal.fin 2, FloatVal.fin 2]).count = 4 ∧
    distinct_count [FloatVal.fin 1, FloatVal.fin 3, FloatVal.fin 2, FloatVal.fin 2] = 3 ∧
    ¬ ((Range.update_from_all Range.reset
      [FloatVal.fin 1, FloatVal.fin 3, FloatVal.fin 2, FloatVal.fin 2]).count ≤
      distinct_count [FloatVal.fin 1, FloatVal.fin 3, FloatVal.fin 2, FloatVal.fin 2]) := by
  decide

/-- A sequence of calls run on a `Layers` value whose arrays hold the two
components of a list of entries: the arrays keep holding the components of the
entries that the same calls leave. -/
theorem Layers.run_entries (calls : List LayersCall) :
    ∀ (L : Layers) (acc : List (FloatVal × Layers.Endpoints)),
      L.m_zs = acc.map Prod.fst → L.m_endpoints = acc.map Prod.snd →
      (Layers.run L calls).m_zs =
        (calls.foldl
          (fun acc c =>
            match c with
            | LayersCall.append z endpoints => acc ++ [(z, endpoints)]
            | LayersCall.reset => [])
          acc).map Prod.fst ∧
      (Layers.run L calls).m_endpoints =
        (calls.foldl
          (fun acc c =>
            match c with
            | LayersCall.append z endpoints => acc ++ [(z, endpoints)]
            | LayersCall.reset => [])
          acc).map Prod.snd := by
  induction calls with
  | nil => intro L acc hz he; exact ⟨hz, he⟩
  | cons c calls ih =>
    intro L acc hz he
    cases c with
    | append z endpoints =>
      exact ih (L.append z endpoints) (acc ++ [(z, endpoints)])
        (by simp [Layers.append, hz]) (by simp [Layers.append, he])
    | reset =>
      exact ih L.reset [] rfl rfl

/-- The arrays of a `Layers` value obtained from `reset()` by a sequence of
calls hold the entries appended since the last reset. -/
theorem Layers.run_reset (L0 : Layers) (calls : List LayersCall) :
    (Layers.run L0.reset calls).m_zs = (entries_since_reset calls).map Prod.fst ∧
    (Layers.run L0.reset calls).m_endpoints = (entries_since_reset calls).map Prod.snd :=
  Layers.run_entries calls L0.reset [] rfl rfl

/-- C12, as the code decides it: for every Layers value obtained from `reset()`
by a sequence of calls, `get_zs()` lists the z of the `append` calls since the
last reset in the order of the calls; it is in non-decreasing order exactly when
the calls passed their z in non-decreasing order. -/
theorem get_zs_in_call_order (L0 : Layers) (calls : List LayersCall) :
    (Layers.run L0.reset calls).get_zs = (entries_since_reset calls).map Prod.fst ∧
    (NonDecreasing (Layers.run L0.reset calls).get_zs ↔
      NonDecreasing ((entries_since_reset calls).map Prod.fst)) := by
  have h := (Layers.run_reset L0 calls).1
  unfold Layers.get_zs
  rw [h]
  exact ⟨rfl, Iff.rfl⟩

/-- Counterexample to C12 as stated: after `reset()`, `append(2, e)` and
`append(1, e)` the z list is `2, 1`, which is not in non-decreasing order. -/
theorem get_zs_not_ordered :
    (Layers.run (Layers.reset {})
      [LayersCall.append (FloatVal.fin 2) {}, LayersCall.append (FloatVal.fin 1) {}]).get_zs =
      [FloatVal.fin 2, FloatVal.fin 1] ∧
    ¬ NonDecreasing (Layers.run (Layers.reset {})
      [LayersCall.append (FloatVal.fin 2) {}, LayersCall.append (FloatVal.fin 1) {}]).get_zs := by
  have h : (Layers.run (Layers.reset {})
      [LayersCall.append (FloatVal.fin 2) {}, LayersCall.append (FloatVal.fin 1) {}]).get_zs =
      [FloatVal.fin 2, FloatVal.fin 1] := rfl
  rw [h]
  refine ⟨rfl, ?_⟩
  intro hc
  have h2 : FloatVal.le (FloatVal.fin 2) (FloatVal.fin 1) = true := by
    simpa [NonDecreasing] using hc
  revert h2
  decide

/-- C18: in every Layers value obtained from `reset()` by a sequence of calls,
`get_zs()` and `get_endpoints()` have the same length and hold the two
components of the entries appended since the last reset, `size()` is the number
of `append` calls since the last reset, `empty()` holds exactly when
`size() = 0`, and `append(z, e)` adds `z` and `e` as the last entries of the two
arrays and leaves the earlier entries unchanged. -/
theorem layers_arrays_parallel (L0 : Layers) (calls : List LayersCall) :
    (Layers.run L0.reset calls).get_zs.length = (Layers.run L0.reset calls).get_endpoints.length ∧
    (Layers.run L0.reset calls).get_zs = (entries_since_reset calls).map Prod.fst ∧
    (Layers.run L0.reset calls).get_endpoints = (entries_since_reset calls).map Prod.snd ∧
    (Layers.run L0.reset calls).size = (entries_since_reset calls).length ∧
    ((Layers.run L0.reset calls).empty = true ↔ (Layers.run L0.reset calls).size = 0) ∧
    (L0.reset.size = 0 ∧ L0.reset.get_zs = [] ∧ L0.reset.get_endpoints = []) ∧
    ∀ (z : FloatVal) (e : Layers.Endpoints),
      ((Layers.run L0.reset calls).append z e).get_zs = (Layers.run L0.reset calls).get_zs ++ [z] ∧
      ((Layers.run L0.reset calls).append z e).get_endpoints =
        (Layers.run L0.reset calls).get_endpoints ++ [e] ∧
      ((Layers.run L0.reset calls).append z e).size = (Layers.run L0.reset calls).size + 1 ∧
      entries_since_reset (calls ++ [LayersCall.append z e]) =
        entries_since_reset calls ++ [(z, e)] := by
  obtain ⟨hz, he⟩ := Layers.run_reset L0 calls
  refine ⟨?_, hz, he, ?_, ?_, ⟨rfl, rfl, rfl⟩, ?_⟩
  · simp [Layers.get_zs, Layers.get_endpoints, hz, he]
  · simp [Layers.size, hz]
  · simp [Layers.empty, Layers.size, List.isEmpty_iff]
  · intro z e
    refine ⟨rfl, rfl, ?_, ?_⟩
    · simp [Layers.size, Layers.append]
    · simp [entries_since_reset, List.foldl_append]

/-! ## RenderPath equivalence -/

/-- Floats that compare equal are not ordered. -/
theorem FloatVal.lt_of_eq (a b : FloatVal) (h : FloatVal.eq a b = true) :
    FloatVal.lt a b = false ∧ FloatVal.lt b a = false := by
  cases a <;> cases b <;> simp_all [FloatVal.lt, FloatVal.eq]

/-- On floats that are not NaN, `==` is equality of the values. -/
theorem FloatVal.eq_iff (a b : FloatVal) (ha : a ≠ FloatVal.nan) (hb : b ≠ FloatVal.nan) :
    FloatVal.eq a b = true ↔ a = b := by
  cases a <;> cases b <;> simp_all [FloatVal.eq]

/-- The predicate `RenderPathPropertyEqual` written out. -/
theorem RenderPathPropertyEqual_iff (l r : RenderPath) :
    RenderPathPropertyEqual l r = true ↔
      FloatVal.eq l.color.c0 r.color.c0 = true ∧ FloatVal.eq l.color.c1 r.color.c1 = true ∧
      FloatVal.eq l.color.c2 r.color.c2 = true ∧ l.index_buffer_id = r.index_buffer_id := by
  simp [RenderPathPropertyEqual, Color.eq, and_assoc]

/-- RenderPaths that `RenderPathPropertyEqual` identifies are equivalent under
`RenderPathPropertyLower`. -/
theorem RenderPathPropertyEqual_not_lower (l r : RenderPath)
    (h : RenderPathPropertyEqual l r = true) :
    RenderPathPropertyLower l r = false ∧ RenderPathPropertyLower r l = false := by
  obtain ⟨h0, h1, h2, h3⟩ := (RenderPathPropertyEqual_iff l r).mp h
  obtain ⟨a0, b0⟩ := FloatVal.lt_of_eq _ _ h0
  obtain ⟨a1, b1⟩ := FloatVal.lt_of_eq _ _ h1
  obtain ⟨a2, b2⟩ := FloatVal.lt_of_eq _ _ h2
  simp [RenderPathPropertyLower_unfold, a0, b0, a1, b1, a2, b2, h3]

/-- A set ordered by `RenderPathPropertyLower` holds at most one element of a
class of `RenderPathPropertyEqual`. -/
theorem set_unique_of_equal (s : List RenderPath)
    (hs : s.Pairwise (fun a b => RenderPathPropertyLower a b = true)) :
    ∀ l r : RenderPath, l ∈ s → r ∈ s → RenderPathPropertyEqual l r = true → l = r := by
  induction s with
  | nil => intro l r hl; simp at hl
  | cons a s ih =>
    rw [List.pairwise_cons] at hs
    intro l r hl hr heq
    obtain ⟨n1, n2⟩ := RenderPathPropertyEqual_not_lower l r heq
    rcases List.mem_cons.mp hl with rfl | hl' <;> rcases List.mem_cons.mp hr with rfl | hr'
    · rfl
    · rw [hs.1 r hr'] at n1
      exact Bool.noConfusion n1
    · rw [hs.1 l hl'] at n2
      exact Bool.noConfusion n2
    · exact ih hs.2 l r hl' hr' heq

/-- C11, as the code decides it: two RenderPaths none of whose color components
is NaN are equivalent under the comparator of `TBuffer::render_paths` (neither
is ordered before the other by `RenderPathPropertyLower`) exactly when
`RenderPathPropertyEqual` holds, that is when they have identical color and the
same `index_buffer_id`, whatever their `path_id`, `sizes` and `offsets`; hence
inserting both into the empty set leaves exactly one RenderPath, and a set
ordered by the comparator holds at most one RenderPath of that color and index
chunk. -/
theorem render_path_equivalence (l r : RenderPath)
    (hl : l.color.noNaN) (hr : r.color.noNaN) :
    ((RenderPathPropertyLower l r = false ∧ RenderPathPropertyLower r l = false) ↔
      RenderPathPropertyEqual l r = true) ∧
    (RenderPathPropertyEqual l r = true ↔
      l.color = r.color ∧ l.index_buffer_id = r.index_buffer_id) ∧
    (RenderPathPropertyEqual l r = true → set_insert r (set_insert l []) = [l]) ∧
    (RenderPathPropertyEqual l r = true →
      ∀ s : List RenderPath, s.Pairwise (fun a b => RenderPathPropertyLower a b = true) →
        l ∈ s → r ∈ s → l = r) := by
  have hEq : RenderPathPropertyEqual l r = true ↔
      l.color = r.color ∧ l.index_buffer_id = r.index_buffer_id := by
    rw [RenderPathPropertyEqual_iff, FloatVal.eq_iff _ _ hl.1 hr.1,
      FloatVal.eq_iff _ _ hl.2.1 hr.2.1, FloatVal.eq_iff _ _ hl.2.2 hr.2.2]
    constructor
    · rintro ⟨h0, h1, h2, h3⟩
      refine ⟨?_, h3⟩
      cases hlc : l.color; cases hrc : r.color
      rw [hlc, hrc] at h0 h1 h2
      simp only at h0 h1 h2
      rw [h0, h1, h2]
    · rintro ⟨hc, h3⟩
      rw [hc]
      exact ⟨rfl, rfl, rfl, h3⟩
  refine ⟨⟨?_, RenderPathPropertyEqual_not_lower l r⟩, hEq, ?_, ?_⟩
  · rintro ⟨h1, h2⟩
    rw [RenderPathPropertyEqual_iff]
    rw [RenderPathPropertyLower_unfold] at h1 h2
    rcases FloatVal.trichotomy _ _ hl.1 hr.1 with ⟨a, b, c⟩ | ⟨a, b, c⟩ | ⟨a, b, c⟩ <;>
    rcases FloatVal.trichotomy _ _ hl.2.1 hr.2.1 with ⟨d, e, f⟩ | ⟨d, e, f⟩ | ⟨d, e, f⟩ <;>
    rcases FloatVal.trichotomy _ _ hl.2.2 hr.2.2 with ⟨g, h, i⟩ | ⟨g, h, i⟩ | ⟨g, h, i⟩ <;>
    simp [a, b, c, d, e, f, g, h, i] at h1 h2 ⊢ <;> omega
  · intro heq
    obtain ⟨n1, n2⟩ := RenderPathPropertyEqual_not_lower l r heq
    simp [set_insert, n1, n2]
  · intro heq s hs hls hrs
    exact set_unique_of_equal s hs l r hls hrs heq

/-- Witness of C11: two batches of the same color in index chunk 1, of
different paths. -/
theorem render_path_equivalence_witness :
    (RenderPathPropertyLower
        ⟨⟨FloatVal.fin 1, FloatVal.fin 0, FloatVal.fin 0⟩, 1, 7, [3], [0]⟩
        ⟨⟨FloatVal.fin 1, FloatVal.fin 0, FloatVal.fin 0⟩, 1, 2, [], []⟩ = false ∧
      RenderPathPropertyLower
        ⟨⟨FloatVal.fin 1, FloatVal.fin 0, FloatVal.fin 0⟩, 1, 2, [], []⟩
        ⟨⟨FloatVal.fin 1, FloatVal.fin 0, FloatVal.fin 0⟩, 1, 7, [3], [0]⟩ = false) ↔
    RenderPathPropertyEqual
        ⟨⟨FloatVal.fin 1, FloatVal.fin 0, FloatVal.fin 0⟩, 1, 7, [3], [0]⟩
        ⟨⟨FloatVal.fin 1, FloatVal.fin 0, FloatVal.fin 0⟩, 1, 2, [], []⟩ = true :=
  (render_path_equivalence
    ⟨⟨FloatVal.fin 1, FloatVal.fin 0, FloatVal.fin 0⟩, 1, 7, [3], [0]⟩
    ⟨⟨FloatVal.fin 1, FloatVal.fin 0, FloatVal.fin 0⟩, 1, 2, [], []⟩
    (by unfold Color.noNaN; decide) (by unfold Color.noNaN; decide)).1

/-- Counterexample to C11 as stated: the colors `(NaN, 0, 0)` and `(1, 0, 0)`
in the same index chunk are equivalent under the comparator, which skips the NaN
component, although they are not identical and `RenderPathPropertyEqual` does
not hold. -/
theorem render_paths_nan_equivalent_not_equal :
    (RenderPathPropertyLower
        ⟨⟨FloatVal.nan, FloatVal.fin 0, FloatVal.fin 0⟩, 0, 0, [], []⟩
        ⟨⟨FloatVal.fin 1, FloatVal.fin 0, FloatVal.fin 0⟩, 0, 0, [], []⟩ = false ∧
      RenderPathPropertyLower
        ⟨⟨FloatVal.fin 1, FloatVal.fin 0, FloatVal.fin 0⟩, 0, 0, [], []⟩
        ⟨⟨FloatVal.nan, FloatVal.fin 0, FloatVal.fin 0⟩, 0, 0, [], []⟩ = false) ∧
    RenderPathPropertyEqual
        ⟨⟨FloatVal.nan, FloatVal.fin 0, FloatVal.fin 0⟩, 0, 0, [], []⟩
        ⟨⟨FloatVal.fin 1, FloatVal.fin 0, FloatVal.fin 0⟩, 0, 0, [], []⟩ = false ∧
    (⟨FloatVal.nan, FloatVal.fin 0, FloatVal.fin 0⟩ : Color) ≠
      ⟨FloatVal.fin 1, FloatVal.fin 0, FloatVal.fin 0⟩ := by
  decide

/-! ## Sub-paths of a path -/

/-- With exactly `2^31` sub-paths the size converted to `int` is negative and
the search returns `-1` without looking at any sub-path. -/
theorem Path.get_id_of_sub_path_containing_int_min (p : Path) (s : Nat)
    (h : p.sub_paths.length = 2 ^ 31) : p.get_id_of_sub_path_containing s = -1 := by
  unfold Path.get_id_of_sub_path_containing
  split_ifs
  · rfl
  · have hint : to_int (2 ^ 31) = -2147483648 := by decide
    rw [h, hint]
    rfl

/-- C17, as the code decides it: `add_sub_path(move, b_id, i_id, s_id)` appends
exactly one Sub_Path whose `first` and `last` both are
`(b_id, i_id, s_id, move.position)`, leaves every earlier sub-path and the
fields `type`, `role`, the attributes, `extruder_id` and `cp_color_id`
unchanged, and afterwards, the path having fewer than `2^31` sub-paths,
`get_id_of_sub_path_containing(s_id)` is not `-1`. -/
theorem add_sub_path_appends (p : Path) (move : MoveVertex) (b_id i_id s_id : Nat) :
    (p.add_sub_path move b_id i_id s_id).sub_paths =
      p.sub_paths ++ [{ first := { b_id := b_id, i_id := i_id, s_id := s_id, position := move.position },
                        last := { b_id := b_id, i_id := i_id, s_id := s_id, position := move.position } }] ∧
    (p.add_sub_path move b_id i_id s_id).sub_paths.length = p.sub_paths.length + 1 ∧
    (∀ (j : Nat) (sp : Sub_Path), p.sub_paths[j]? = some sp →
      (p.add_sub_path move b_id i_id s_id).sub_paths[j]? = some sp) ∧
    ((p.add_sub_path move b_id i_id s_id).type = p.type ∧
     (p.add_sub_path move b_id i_id s_id).role = p.role ∧
     (p.add_sub_path move b_id i_id s_id).delta_extruder = p.delta_extruder ∧
     (p.add_sub_path move b_id i_id s_id).height = p.height ∧
     (p.add_sub_path move b_id i_id s_id).width = p.width ∧
     (p.add_sub_path move b_id i_id s_id).feedrate = p.feedrate ∧
     (p.add_sub_path move b_id i_id s_id).fan_speed = p.fan_speed ∧
     (p.add_sub_path move b_id i_id s_id).volumetric_rate = p.volumetric_rate ∧
     (p.add_sub_path move b_id i_id s_id).extruder_id = p.extruder_id ∧
     (p.add_sub_path move b_id i_id s_id).cp_color_id = p.cp_color_id) ∧
    (p.sub_paths.length + 1 < 2 ^ 31 →
      (p.add_sub_path move b_id i_id s_id).get_id_of_sub_path_containing s_id ≠ -1) := by
  have hsub : (p.add_sub_path move b_id i_id s_id).sub_paths =
      p.sub_paths ++ [{ first := { b_id := b_id, i_id := i_id, s_id := s_id, position := move.position },
                        last := { b_id := b_id, i_id := i_id, s_id := s_id, position := move.position } }] := rfl
  refine ⟨hsub, by rw [hsub]; simp, ?_, ⟨rfl, rfl, rfl, rfl, rfl, rfl, rfl, rfl, rfl, rfl⟩, ?_⟩
  · intro j sp hj
    rw [hsub]
    have hlt : j < p.sub_paths.length := (List.getElem?_eq_some_iff.mp hj).1
    rw [List.getElem?_append_left hlt]
    exact hj
  · intro hlen hm
    have hlen' : (p.add_sub_path move b_id i_id s_id).sub_paths.length < 2 ^ 31 := by
      rw [hsub]; simpa using hlen
    rcases Path.get_id_of_sub_path_containing_cases _ s_id hlen' with
      ⟨_, hall⟩ | ⟨k, sp, _, hr, _, _, _⟩
    · have hget : (p.add_sub_path move b_id i_id s_id).sub_paths[p.sub_paths.length]? =
          some { first := { b_id := b_id, i_id := i_id, s_id := s_id, position := move.position },
                 last := { b_id := b_id, i_id := i_id, s_id := s_id, position := move.position } } := by
        rw [hsub]; simp
      have := hall _ _ hget
      simp [Sub_Path.contains] at this
    · rw [hr] at hm
      omega

/-- Witness of C17: a second sub-path, starting at move 15 in chunk 1, added to
a path whose first sub-path covers the moves 10 .. 14. -/
theorem add_sub_path_appends_witness :
    (Path.add_sub_path { sub_paths := [⟨{ s_id := 10 }, { s_id := 14 }⟩] } {} 1 0 15).get_id_of_sub_path_containing 15
      ≠ -1 :=
  (add_sub_path_appends { sub_paths := [⟨{ s_id := 10 }, { s_id := 14 }⟩] } {} 1 0 15).2.2.2.2
    (by decide)

/-- Counterexample to C17 as stated: added to a path of `2^31 - 1` sub-paths
that hold move 5, the sub-path for move 0 is the `2^31`-th one; the size
converted to `int` is then negative and `get_id_of_sub_path_containing(0)`
returns `-1`. -/
theorem add_sub_path_int_size :
    (Path.add_sub_path { sub_paths := List.replicate (2 ^ 31 - 1) ⟨{ s_id := 5 }, { s_id := 5 }⟩ }
      {} 0 0 0).get_id_of_sub_path_containing 0 = -1 := by
  apply Path.get_id_of_sub_path_containing_int_min
  show (List.replicate (2 ^ 31 - 1) (⟨{ s_id := 5 }, { s_id := 5 }⟩ : Sub_Path) ++ [_]).length = 2 ^ 31
  rw [List.length_append, List.length_replicate]
  rfl

/-- The tail of contiguous sub-paths is contiguous. -/
theorem Contiguous.tail {f : Sub_Path} {sps : List Sub_Path} (h : Contiguous (f :: sps)) :
    Contiguous sps :=
  ⟨fun sp hsp => h.1 sp (List.mem_cons_of_mem f hsp), (List.chain'_cons'.mp h.2).2⟩

/-- Contiguous sub-paths span the moves from the first move of the first
sub-path to the last move of the last one: these bounds are ordered, a move lies
between them exactly when a sub-path contains it, and the sub-paths cover
`last - first + 1` moves. -/
theorem Contiguous.span (sps : List Sub_Path) :
    ∀ (f l : Sub_Path), Contiguous (f :: sps) → (f :: sps).getLast? = some l →
      f.first.s_id ≤ l.last.s_id ∧
      (∀ s : Nat, (f.first.s_id ≤ s ∧ s ≤ l.last.s_id) ↔
        ∃ sp ∈ f :: sps, sp.first.s_id ≤ s ∧ s ≤ sp.last.s_id) ∧
      covered_moves (f :: sps) = l.last.s_id - f.first.s_id + 1 := by
  induction sps with
  | nil =>
    intro f l hc hl
    have hfl : f = l := by simpa using hl
    subst hfl
    have hle := hc.1 f (List.mem_singleton.mpr rfl)
    exact ⟨hle, fun s => by simp, by simp [covered_moves]⟩
  | cons g rest ih =>
    intro f l hc hl
    have hle := hc.1 f (List.mem_cons_self f _)
    have hnext : g.first.s_id = f.last.s_id + 1 := by
      have := (List.chain'_cons'.mp hc.2).1 g (by simp)
      exact this
    have hl' : (g :: rest).getLast? = some l := by
      rw [List.getLast?_cons_cons] at hl
      exact hl
    obtain ⟨h1, h2, h3⟩ := ih g l hc.tail hl'
    refine ⟨by omega, ?_, ?_⟩
    · intro s
      constructor
      · rintro ⟨ha, hb⟩
        by_cases hs : s ≤ f.last.s_id
        · exact ⟨f, List.mem_cons_self f _, ha, hs⟩
        · obtain ⟨sp, hsp, hin⟩ := (h2 s).mp ⟨by omega, hb⟩
          exact ⟨sp, List.mem_cons_of_mem f hsp, hin⟩
      · rintro ⟨sp, hsp, ha, hb⟩
        rcases List.mem_cons.mp hsp with rfl | hsp'
        · exact ⟨ha, by omega⟩
        · have := (h2 s).mpr ⟨sp, hsp', ha, hb⟩
          exact ⟨by omega, this.2⟩
    · have hcov : covered_moves (f :: g :: rest) =
          (f.last.s_id - f.first.s_id + 1) + covered_moves (g :: rest) := by
        simp [covered_moves]
      rw [hcov, h3]
      omega

/-- In contiguous sub-paths every sub-path ends before each later one starts. -/
theorem Contiguous.pairwise (sps : List Sub_Path) :
    Contiguous sps → sps.Pairwise (fun a b => a.last.s_id < b.first.s_id) := by
  induction sps with
  | nil => intro _; exact List.Pairwise.nil
  | cons f rest ih =>
    intro hc
    refine List.Pairwise.cons ?_ (ih hc.tail)
    intro b hb
    cases rest with
    | nil => simp at hb
    | cons g rest' =>
      have hnext : g.first.s_id = f.last.s_id + 1 := (List.chain'_cons'.mp hc.2).1 g (by simp)
      rcases List.mem_cons.mp hb with rfl | hb'
      · omega
      · have hg := List.rel_of_pairwise_cons (ih hc.tail) hb'
        have hgle := hc.1 g (by simp)
        omega

/-- In contiguous sub-paths at most one sub-path contains a given move. -/
theorem Contiguous.unique_index (sps : List Sub_Path) (hc : Contiguous sps) (s : Nat)
    (i j : Nat) (a b : Sub_Path) (hi : sps[i]? = some a) (hj : sps[j]? = some b)
    (ha : a.first.s_id ≤ s ∧ s ≤ a.last.s_id) (hb : b.first.s_id ≤ s ∧ s ≤ b.last.s_id) :
    i = j := by
  have hp := List.pairwise_iff_getElem.mp (Contiguous.pairwise sps hc)
  obtain ⟨hi1, hi2⟩ := List.getElem?_eq_some_iff.mp hi
  obtain ⟨hj1, hj2⟩ := List.getElem?_eq_some_iff.mp hj
  rcases Nat.lt_trichotomy i j with h | h | h
  · have := hp i j hi1 hj1 h
    rw [hi2, hj2] at this
    omega
  · exact h
  · have := hp j i hj1 hi1 h
    rw [hi2, hj2] at this
    omega

/-- The method `Path::contains` on a path with sub-paths. -/
theorem Path.contains_first_last (p : Path) (s : Nat) (f l : Sub_Path)
    (hf : p.sub_paths.head? = some f) (hl : p.sub_paths.getLast? = some l) :
    p.contains s = true ↔ f.first.s_id ≤ s ∧ s ≤ l.last.s_id := by
  simp [Path.contains, hf, hl]

/-- C19, as the code decides it: for every Path with fewer than `2^31`
sub-paths that satisfy the data-model invariant (each `first.s_id <= last.s_id`,
each next `first.s_id` the previous `last.s_id + 1`) and for every move id `s`,
`Path::contains(s)` holds exactly when `get_id_of_sub_path_containing(s)` is not
`-1`, and then exactly one sub-path contains `s`. -/
theorem contains_iff_sub_path_found (p : Path) (s : Nat)
    (hinv : Contiguous p.sub_paths) (hlen : p.sub_paths.length < 2 ^ 31) :
    (p.contains s = true ↔ p.get_id_of_sub_path_containing s ≠ -1) ∧
    (p.contains s = true →
      ∃! i : Nat, ∃ sp : Sub_Path,
        p.sub_paths[i]? = some sp ∧ sp.first.s_id ≤ s ∧ s ≤ sp.last.s_id) := by
  have hfound : p.get_id_of_sub_path_containing s ≠ -1 ↔
      ∃ sp ∈ p.sub_paths, sp.first.s_id ≤ s ∧ s ≤ sp.last.s_id := by
    rcases Path.get_id_of_sub_path_containing_cases p s hlen with
      ⟨hr, hall⟩ | ⟨k, sp, _, hr, hsp, hcs, _⟩
    · constructor
      · intro h; exact absurd hr h
      · rintro ⟨sp, hsp, hin⟩
        obtain ⟨j, hj, rfl⟩ := List.getElem_of_mem hsp
        have := hall j _ (List.getElem?_eq_getElem hj)
        rw [(Sub_Path.contains_iff _ s).mpr hin] at this
        exact Bool.noConfusion this
    · constructor
      · intro _
        exact ⟨sp, List.getElem?_mem hsp, (Sub_Path.contains_iff sp s).mp hcs⟩
      · intro _
        rw [hr]
        omega
  have hcontains : p.contains s = true ↔
      ∃ sp ∈ p.sub_paths, sp.first.s_id ≤ s ∧ s ≤ sp.last.s_id := by
    cases hsps : p.sub_paths with
    | nil => simp [Path.contains, hsps]
    | cons f rest =>
      obtain ⟨l, hl⟩ : ∃ l, (f :: rest).getLast? = some l :=
        ⟨(f :: rest).getLast (by simp), List.getLast?_eq_getLast _ _⟩
      rw [Path.contains_first_last p s f l (by rw [hsps]; rfl) (by rw [hsps]; exact hl)]
      exact (Contiguous.span rest f l (hsps ▸ hinv) hl).2.1 s
  refine ⟨hcontains.trans hfound.symm, ?_⟩
  intro hc
  obtain ⟨sp, hsp, hin⟩ := hcontains.mp hc
  obtain ⟨i, hi, rfl⟩ := List.getElem_of_mem hsp
  refine ⟨i, ⟨_, List.getElem?_eq_getElem hi, hin⟩, ?_⟩
  rintro j ⟨sp', hj, hin'⟩
  exact Contiguous.unique_index p.sub_paths hinv s j i sp' _ hj (List.getElem?_eq_getElem hi) hin' hin

/-- Witness of C19: the sub-paths 10 .. 14 and 15 .. 30 and the move 20. -/
theorem contains_iff_sub_path_found_witness :
    Path.contains { sub_paths := [⟨{ s_id := 10 }, { s_id := 14 }⟩, ⟨{ s_id := 15 }, { s_id := 30 }⟩] } 20 = true ↔
    Path.get_id_of_sub_path_containing
      { sub_paths := [⟨{ s_id := 10 }, { s_id := 14 }⟩, ⟨{ s_id := 15 }, { s_id := 30 }⟩] } 20 ≠ -1 :=
  (contains_iff_sub_path_found
    { sub_paths := [⟨{ s_id := 10 }, { s_id := 14 }⟩, ⟨{ s_id := 15 }, { s_id := 30 }⟩] } 20
    (by simp [Contiguous]) (by decide)).1

/-- The one-move sub-paths satisfy the data-model invariant. -/
theorem unit_sub_paths_contiguous (n : Nat) : Contiguous (unit_sub_paths n) := by
  unfold unit_sub_paths
  constructor
  · intro sp hsp
    obtain ⟨i, _, rfl⟩ := List.mem_map.mp hsp
    exact le_refl _
  · rw [List.chain'_map]
    cases n with
    | zero => simp
    | succ m =>
      rw [List.chain'_range_succ]
      intro k _
      rfl

/-- First and last of the one-move sub-paths. -/
theorem unit_sub_paths_ends (n : Nat) (hn : 0 < n) :
    (unit_sub_paths n).head? = some { first := { s_id := 0 }, last := { s_id := 0 } } ∧
    (unit_sub_paths n).getLast? = some { first := { s_id := n - 1 }, last := { s_id := n - 1 } } := by
  obtain ⟨m, rfl⟩ : ∃ m, n = m + 1 := ⟨n - 1, by omega⟩
  constructor
  · simp [unit_sub_paths, List.range_succ_eq_map]
  · simp [unit_sub_paths, List.range_succ]

/-- The path of `n >= 1` one-move sub-paths contains move 0. -/
theorem unit_sub_paths_contains_zero (n : Nat) (hn : 0 < n) :
    Path.contains { sub_paths := unit_sub_paths n } 0 = true := by
  obtain ⟨h1, h2⟩ := unit_sub_paths_ends n hn
  simp only [Path.contains, h1, h2]
  simp

/-- Counterexample to C19 as stated: the `2^31` one-move sub-paths for the moves
`0 .. 2^31 - 1` satisfy the invariant and `Path::contains(0)` holds, but the size
converted to `int` is negative and `get_id_of_sub_path_containing(0)` is `-1`. -/
theorem contains_but_not_found_int_size :
    Contiguous (unit_sub_paths (2 ^ 31)) ∧
    Path.contains { sub_paths := unit_sub_paths (2 ^ 31) } 0 = true ∧
    Path.get_id_of_sub_path_containing { sub_paths := unit_sub_paths (2 ^ 31) } 0 = -1 := by
  refine ⟨unit_sub_paths_contiguous _, unit_sub_paths_contains_zero _ (by norm_num), ?_⟩
  apply Path.get_id_of_sub_path_containing_int_min
  simp [unit_sub_paths]

/-- C20, as the code decides it: for every Path with at least one sub-path whose
sub-paths are contiguous with no gap or overlap, the last move id being a
`size_t`, `vertices_count()` is the sum over the sub-paths of
`last.s_id - first.s_id + 1`, the number of move ids they cover, reduced modulo
`2^64`; it is that number itself whenever the number is below `2^64`. -/
theorem vertices_count_covered_moves (p : Path) (f l : Sub_Path)
    (hf : p.sub_paths.head? = some f) (hl : p.sub_paths.getLast? = some l)
    (hinv : Contiguous p.sub_paths) (hsize : l.last.s_id < SIZE_T_MOD) :
    p.vertices_count = covered_moves p.sub_paths % SIZE_T_MOD ∧
    (covered_moves p.sub_paths < SIZE_T_MOD → p.vertices_count = covered_moves p.sub_paths) := by
  have hvc : p.vertices_count = covered_moves p.sub_paths % SIZE_T_MOD := by
    cases hsps : p.sub_paths with
    | nil => rw [hsps] at hf; simp at hf
    | cons g rest =>
      rw [hsps] at hf hl hinv
      have hg : g = f := by simpa using hf
      subst hg
      obtain ⟨h1, _, h3⟩ := Contiguous.span rest g l hinv hl
      rw [h3]
      simp only [Path.vertices_count, hsps, List.head?_cons, hl, size_t_add,
        size_t_sub_of_le _ _ h1 hsize]
  exact ⟨hvc, fun h => by rw [hvc, Nat.mod_eq_of_lt h]⟩

/-- Witness of C20: the sub-paths 10 .. 14 and 15 .. 30 cover 21 moves. -/
theorem vertices_count_covered_moves_witness :
    Path.vertices_count { sub_paths := [⟨{ s_id := 10 }, { s_id := 14 }⟩, ⟨{ s_id := 15 }, { s_id := 30 }⟩] } =
      covered_moves [⟨{ s_id := 10 }, { s_id := 14 }⟩, ⟨{ s_id := 15 }, { s_id := 30 }⟩] :=
  (vertices_count_covered_moves
    { sub_paths := [⟨{ s_id := 10 }, { s_id := 14 }⟩, ⟨{ s_id := 15 }, { s_id := 30 }⟩] }
    ⟨{ s_id := 10 }, { s_id := 14 }⟩ ⟨{ s_id := 15 }, { s_id := 30 }⟩ rfl rfl
    (by simp [Contiguous]) (by decide)).2 (by decide)

/-- Counterexample to C20 as stated: the contiguous sub-paths `0 .. 9` and
`10 .. 2^64 - 1` cover `2^64` moves, and `vertices_count()`, computed in
`size_t`, is 0. -/
theorem covered_moves_wrap_to_zero :
    Contiguous [⟨{ s_id := 0 }, { s_id := 9 }⟩, ⟨{ s_id := 10 }, { s_id := 18446744073709551615 }⟩] ∧
    covered_moves [⟨{ s_id := 0 }, { s_id := 9 }⟩, ⟨{ s_id := 10 }, { s_id := 18446744073709551615 }⟩]
      = 18446744073709551616 ∧
    Path.vertices_count
      { sub_paths := [⟨{ s_id := 0 }, { s_id := 9 }⟩, ⟨{ s_id := 10 }, { s_id := 18446744073709551615 }⟩] }
      = 0 := by
  refine ⟨by simp [Contiguous], by norm_num [covered_moves], by decide⟩

/-! ## View type -/

/-- The view type stored by `set_view_type`. -/
theorem Viewer.set_view_type_get (v : Viewer) (t : EViewType) :
    (v.set_view_type t).get_view_type =
      if t = EViewType.Count then EViewType.FeatureType else t := rfl

/-- The view type stored by `set_view_type` is not `Count`. -/
theorem Viewer.set_view_type_ne_count (v : Viewer) (t : EViewType) :
    (v.set_view_type t).get_view_type ≠ EViewType.Count := by
  rw [Viewer.set_view_type_get]
  split_ifs with h
  · decide
  · exact h

/-- A sequence of calls of `set_view_type` keeps the stored view type different
from `Count`. -/
theorem Viewer.set_view_types_ne_count (ts : List EViewType) :
    ∀ v : Viewer, v.get_view_type ≠ EViewType.Count →
      (v.set_view_types ts).get_view_type ≠ EViewType.Count := by
  induction ts with
  | nil => intro v hv; exact hv
  | cons t ts ih =>
    intro v _
    exact ih (v.set_view_type t) (Viewer.set_view_type_ne_count v t)

/-- Setting the stored view type again changes nothing when it is not `Count`. -/
theorem Viewer.set_view_type_same (v : Viewer) (h : v.get_view_type ≠ EViewType.Count) :
    v.set_view_type v.get_view_type = v := by
  unfold Viewer.get_view_type at h
  simp [Viewer.set_view_type, Viewer.get_view_type, h]

/-- C23: after `set_view_type(t)`, `get_view_type()` is `FeatureType` when `t`
is `Count` and `t` otherwise, hence never `Count`; the initial view type is
`FeatureType`, and starting from it every sequence of `set_view_type` calls
leaves `get_view_type()` different from `Count` and in a state in which
`set_view_type(get_view_type())` changes nothing. -/
theorem view_type_never_count :
    (∀ (v : Viewer) (t : EViewType),
      (v.set_view_type t).get_view_type =
        (if t = EViewType.Count then EViewType.FeatureType else t) ∧
      (v.set_view_type t).get_view_type ≠ EViewType.Count) ∧
    ({} : Viewer).get_view_type = EViewType.FeatureType ∧
    (∀ (v : Viewer) (ts : List EViewType), v.get_view_type = EViewType.FeatureType →
      (v.set_view_types ts).get_view_type ≠ EViewType.Count ∧
      (v.set_view_types ts).set_view_type (v.set_view_types ts).get_view_type =
        v.set_view_types ts) ∧
    (∀ v : Viewer, v.get_view_type ≠ EViewType.Count → v.set_view_type v.get_view_type = v) := by
  refine ⟨fun v t => ⟨Viewer.set_view_type_get v t, Viewer.set_view_type_ne_count v t⟩, rfl,
    ?_, Viewer.set_view_type_same⟩
  intro v ts hv
  have hne : (v.set_view_types ts).get_view_type ≠ EViewType.Count :=
    Viewer.set_view_types_ne_count ts v (by rw [hv]; decide)
  exact ⟨hne, Viewer.set_view_type_same _ hne⟩

/-! ## Role visibility -/

/-- The shift `1 << i` for `i < 32`. -/
theorem shl_one_of_lt (i : Nat) (h : i < 32) : shl_one i = 2 ^ i := by
  unfold shl_one
  exact Nat.mod_eq_of_lt (Nat.pow_lt_pow_right (by decide) h)

/-- The flags after the loop of `reset_role_visibility_flags`: bit `i` is set
exactly for `i < erCount`. -/
theorem reset_flags_testBit (n : Nat) (hn : n ≤ 32) (i : Nat) :
    ((List.range n).foldl (fun flags i => flags ||| shl_one i) 0).testBit i = decide (i < n) := by
  induction n with
  | zero => simp
  | succ k ih =>
    rw [List.range_succ, List.foldl_append, List.foldl_cons, List.foldl_nil, Nat.testBit_or,
      ih (by omega), shl_one_of_lt k (by omega), Nat.testBit_two_pow]
    by_cases h1 : i < k
    · simp [h1, Nat.lt_succ_of_lt h1]
    · by_cases h2 : k = i
      · simp [h2]
      · have h3 : ¬ i < k + 1 := by omega
        simp [h1, h2, h3]

/-- The test `(flags & (1 << role)) != 0` reads bit `role` of the flags. -/
theorem and_shl_one_ne_zero (flags role : Nat) (h : role < 32) :
    flags &&& shl_one role ≠ 0 ↔ flags.testBit role = true := by
  rw [shl_one_of_lt role h]
  constructor
  · intro hne
    by_contra hb
    apply hne
    apply Nat.eq_of_testBit_eq
    intro j
    rw [Nat.testBit_and, Nat.testBit_two_pow, Nat.zero_testBit]
    by_cases hj : role = j
    · subst hj
      simp [hb]
    · simp [hj]
  · intro hb h0
    have h1 : (flags &&& 2 ^ role).testBit role = true := by
      rw [Nat.testBit_and, hb, Nat.testBit_two_pow_self]
      rfl
    rw [h0, Nat.zero_testBit] at h1
    exact Bool.noConfusion h1

/-- C22: for `erCount < 32`, after `reset_role_visibility_flags()` the flags
are `2^erCount - 1` and `is_visible(role)` holds exactly for the roles with
`role < erCount`; and for any flags value `is_visible(role)` holds exactly when
`role < erCount` and bit number `role` of `role_visibility_flags` is set. -/
theorem role_visibility_flags_bits (erCount : Nat) (h : erCount < 32) :
    (∀ e : Extrusions,
      (e.reset_role_visibility_flags erCount).role_visibility_flags = 2 ^ erCount - 1 ∧
      (e.reset_role_visibility_flags erCount).ranges = e.ranges) ∧
    (∀ (v : Viewer) (role : Nat),
      Viewer.is_visible erCount
        { v with m_extrusions := v.m_extrusions.reset_role_visibility_flags erCount } role = true ↔
      role < erCount) ∧
    (∀ (v : Viewer) (role : Nat),
      Viewer.is_visible erCount v role = true ↔
      role < erCount ∧ v.m_extrusions.role_visibility_flags.testBit role = true) := by
  have hflags : ∀ e : Extrusions,
      (e.reset_role_visibility_flags erCount).role_visibility_flags = 2 ^ erCount - 1 := by
    intro e
    apply Nat.eq_of_testBit_eq
    intro i
    rw [Nat.testBit_two_pow_sub_one]
    exact reset_flags_testBit erCount (by omega) i
  have hvis : ∀ (v : Viewer) (role : Nat),
      Viewer.is_visible erCount v role = true ↔
      role < erCount ∧ v.m_extrusions.role_visibility_flags.testBit role = true := by
    intro v role
    unfold Viewer.is_visible
    rw [Bool.and_eq_true, decide_eq_true_eq, decide_eq_true_eq]
    constructor
    · rintro ⟨h1, h2⟩
      exact ⟨h1, (and_shl_one_ne_zero _ role (by omega)).mp h2⟩
    · rintro ⟨h1, h2⟩
      exact ⟨h1, (and_shl_one_ne_zero _ role (by omega)).mpr h2⟩
  refine ⟨fun e => ⟨hflags e, rfl⟩, ?_, hvis⟩
  intro v role
  rw [hvis]
  show role < erCount ∧
    (v.m_extrusions.reset_role_visibility_flags erCount).role_visibility_flags.testBit role = true ↔ _
  rw [hflags, Nat.testBit_two_pow_sub_one]
  simp

/-- Witness of C22: 15 extrusion roles give the flags `2^15 - 1 = 32767`. -/
theorem role_visibility_flags_bits_witness :
    (Extrusions.reset_role_visibility_flags 15 {}).role_visibility_flags = 2 ^ 15 - 1 :=
  ((role_visibility_flags_bits 15 (by decide)).1 {}).1

/-! ## RenderPathPropertyLower as a strict weak ordering -/

/-- No float is smaller than itself. -/
theorem FloatVal.lt_self (a : FloatVal) : FloatVal.lt a a = false := by
  cases a <;> simp [FloatVal.lt]

/-- The comparison `<` of floats is transitive. -/
theorem FloatVal.lt_chain (a b c : FloatVal) (h1 : FloatVal.lt a b = true)
    (h2 : FloatVal.lt b c = true) : FloatVal.lt a c = true := by
  cases a <;> cases b <;> cases c <;> simp_all [FloatVal.lt]
  exact lt_trans h1 h2

/-- Without NaN the comparator is the lexicographic order of the keys, the
components being compared by `<` and by equality. -/
theorem lower_iff_key (l r : RenderPath) (hl : l.color.noNaN) (hr : r.color.noNaN) :
    RenderPathPropertyLower l r = true ↔
      (FloatVal.lt l.color.c0 r.color.c0 = true ∨
      (l.color.c0 = r.color.c0 ∧
        (FloatVal.lt l.color.c1 r.color.c1 = true ∨
        (l.color.c1 = r.color.c1 ∧
          (FloatVal.lt l.color.c2 r.color.c2 = true ∨
          (l.color.c2 = r.color.c2 ∧ l.index_buffer_id < r.index_buffer_id)))))) := by
  rw [RenderPathPropertyLower_unfold, ← FloatVal.eq_iff _ _ hl.1 hr.1,
    ← FloatVal.eq_iff _ _ hl.2.1 hr.2.1, ← FloatVal.eq_iff _ _ hl.2.2 hr.2.2]
  rcases FloatVal.trichotomy _ _ hl.1 hr.1 with ⟨a, b, c⟩ | ⟨a, b, c⟩ | ⟨a, b, c⟩ <;>
  rcases FloatVal.trichotomy _ _ hl.2.1 hr.2.1 with ⟨d, e, f⟩ | ⟨d, e, f⟩ | ⟨d, e, f⟩ <;>
  rcases FloatVal.trichotomy _ _ hl.2.2 hr.2.2 with ⟨g, h, i⟩ | ⟨g, h, i⟩ | ⟨g, h, i⟩ <;>
  simp [a, b, c, d, e, f, g, h, i]

/-- Without NaN two RenderPaths are incomparable exactly when their colors and
index buffer ids are equal. -/
theorem incomparable_iff_same_key (l r : RenderPath) (hl : l.color.noNaN) (hr : r.color.noNaN) :
    (RenderPathPropertyLower l r = false ∧ RenderPathPropertyLower r l = false) ↔
      (l.color.c0 = r.color.c0 ∧ l.color.c1 = r.color.c1 ∧ l.color.c2 = r.color.c2 ∧
        l.index_buffer_id = r.index_buffer_id) := by
  rw [← FloatVal.eq_iff _ _ hl.1 hr.1, ← FloatVal.eq_iff _ _ hl.2.1 hr.2.1,
    ← FloatVal.eq_iff _ _ hl.2.2 hr.2.2]
  constructor
  · rintro ⟨h1, h2⟩
    rw [RenderPathPropertyLower_unfold] at h1 h2
    rcases FloatVal.trichotomy _ _ hl.1 hr.1 with ⟨a, b, c⟩ | ⟨a, b, c⟩ | ⟨a, b, c⟩ <;>
    rcases FloatVal.trichotomy _ _ hl.2.1 hr.2.1 with ⟨d, e, f⟩ | ⟨d, e, f⟩ | ⟨d, e, f⟩ <;>
    rcases FloatVal.trichotomy _ _ hl.2.2 hr.2.2 with ⟨g, h, i⟩ | ⟨g, h, i⟩ | ⟨g, h, i⟩ <;>
    simp [a, b, c, d, e, f, g, h, i] at h1 h2 ⊢ <;> omega
  · intro h
    exact RenderPathPropertyEqual_not_lower l r ((RenderPathPropertyEqual_iff l r).mpr h)

/-- C21: over RenderPaths whose color components are not NaN,
`RenderPathPropertyLower` is a strict weak ordering: it is irreflexive,
asymmetric and transitive, and incomparability under it is transitive. -/
theorem render_path_lower_strict_weak_ordering :
    (∀ l : RenderPath, l.color.noNaN → RenderPathPropertyLower l l = false) ∧
    (∀ l r : RenderPath, l.color.noNaN → r.color.noNaN →
      RenderPathPropertyLower l r = true → RenderPathPropertyLower r l = false) ∧
    (∀ l m r : RenderPath, l.color.noNaN → m.color.noNaN → r.color.noNaN →
      RenderPathPropertyLower l m = true → RenderPathPropertyLower m r = true →
      RenderPathPropertyLower l r = true) ∧
    (∀ l m r : RenderPath, l.color.noNaN → m.color.noNaN → r.color.noNaN →
      (RenderPathPropertyLower l m = false ∧ RenderPathPropertyLower m l = false) →
      (RenderPathPropertyLower m r = false ∧ RenderPathPropertyLower r m = false) →
      (RenderPathPropertyLower l r = false ∧ RenderPathPropertyLower r l = false)) := by
  have hirr : ∀ l : RenderPath, RenderPathPropertyLower l l = false := by
    intro l
    simp [RenderPathPropertyLower_unfold, FloatVal.lt_self]
  have htrans : ∀ l m r : RenderPath, l.color.noNaN → m.color.noNaN → r.color.noNaN →
      RenderPathPropertyLower l m = true → RenderPathPropertyLower m r = true →
      RenderPathPropertyLower l r = true := by
    intro l m r hl hm hr h1 h2
    rw [lower_iff_key l m hl hm] at h1
    rw [lower_iff_key m r hm hr] at h2
    rw [lower_iff_key l r hl hr]
    rcases h1 with a | ⟨a, b | ⟨b, c | ⟨c, d⟩⟩⟩ <;>
    rcases h2 with e | ⟨e, f | ⟨f, g | ⟨g, k⟩⟩⟩
    · exact Or.inl (FloatVal.lt_chain _ _ _ a e)
    · exact Or.inl (e ▸ a)
    · exact Or.inl (e ▸ a)
    · exact Or.inl (e ▸ a)
    · exact Or.inl (a ▸ e)
    · exact Or.inr ⟨a.trans e, Or.inl (FloatVal.lt_chain _ _ _ b f)⟩
    · exact Or.inr ⟨a.trans e, Or.inl (f ▸ b)⟩
    · exact Or.inr ⟨a.trans e, Or.inl (f ▸ b)⟩
    · exact Or.inl (a ▸ e)
    · exact Or.inr ⟨a.trans e, Or.inl (b ▸ f)⟩
    · exact Or.inr ⟨a.trans e, Or.inr ⟨b.trans f, Or.inl (FloatVal.lt_chain _ _ _ c g)⟩⟩
    · exact Or.inr ⟨a.trans e, Or.inr ⟨b.trans f, Or.inl (g ▸ c)⟩⟩
    · exact Or.inl (a ▸ e)
    · exact Or.inr ⟨a.trans e, Or.inl (b ▸ f)⟩
    · exact Or.inr ⟨a.trans e, Or.inr ⟨b.trans f, Or.inl (c ▸ g)⟩⟩
    · exact Or.inr ⟨a.trans e, Or.inr ⟨b.trans f, Or.inr ⟨c.trans g, Nat.lt_trans d k⟩⟩⟩
  refine ⟨fun l _ => hirr l, ?_, htrans, ?_⟩
  · intro l r hl hr h1
    cases h2 : RenderPathPropertyLower r l with
    | false => rfl
    | true =>
      have h3 := htrans l r l hl hr hl h1 h2
      rw [hirr l] at h3
      exact Bool.noConfusion h3
  · intro l m r hl hm hr h1 h2
    rw [incomparable_iff_same_key l m hl hm] at h1
    rw [incomparable_iff_same_key m r hm hr] at h2
    rw [incomparable_iff_same_key l r hl hr]
    exact ⟨h1.1.trans h2.1, h1.2.1.trans h2.2.1, h1.2.2.1.trans h2.2.2.1, h1.2.2.2.trans h2.2.2.2⟩

end GCodeViewer
